import Mathlib

/-!
# OpenTTD-Spiffing: packed vehicle-list identifiers, loan commands, battle-royale mode

A shallow embedding of

* `VehicleListIdentifier::Pack`, `UnpackIfValid`, `UnPack` (`src/vehiclelist.cpp`),
* `CmdIncreaseLoan`, `CmdDecreaseLoan` (`src/misc_cmd.cpp`),
* `BrmProcessBuyCompanyShare`, `CcBrmAnnounce`, `BrmProcessGameTick`
  (`src/battle_royale_mode.cpp`),

followed by the properties proved about them.
-/

namespace OpenTTD

/-! ## vehiclelist.cpp -/

/-- The four fields of `VehicleListIdentifier`; enumerators and integers are kept as their
numeric values. -/
structure VehicleListIdentifier where
  type : Nat
  vtype : Nat
  company : Nat
  index : Nat
  deriving DecidableEq, Repr

/-- Modelled from the spec: `GB(x, s, n)` of `core/bitmath_func.hpp` (not among the sources),
the `n` bits of `x` that start at bit `s`: `(x >> s) & ((1 << n) - 1)`. -/
def GB (x s n : Nat) : Nat := (x >>> s) &&& ((1 <<< n) - 1)

/-- The conversion `(uint64)v`. -/
def toUint64 (v : Nat) : Nat := v % 2 ^ 64

/-- The conversion to `uint16`, as in `uint16 c = ...`. -/
def toUint16 (v : Nat) : Nat := v % 2 ^ 16

/-- A left shift of a `uint64`. -/
def shl64 (v s : Nat) : Nat := (v <<< s) % 2 ^ 64

/-- The three run-time assertions at the head of `Pack`; `VLT_END` is the sentinel of
`VehicleListType`, whose declaration is not among the sources. -/
def PackAsserts (VLT_END : Nat) (id : VehicleListIdentifier) : Prop :=
  id.vtype < 1 <<< 2 ∧ id.index < 1 <<< 20 ∧ id.type < VLT_END

instance (VLT_END : Nat) (id : VehicleListIdentifier) : Decidable (PackAsserts VLT_END id) := by
  unfold PackAsserts; infer_instance

/-- `VehicleListIdentifier::Pack`: `none` when an assertion fails. -/
def Pack (VLT_END : Nat) (id : VehicleListIdentifier) : Option Nat :=
  let c := toUint16 id.company
  if PackAsserts VLT_END id then
    some (shl64 (toUint64 c) 28 ||| shl64 (toUint64 id.type) 23 ||| shl64 (toUint64 id.vtype) 26
      ||| toUint64 id.index)
  else none

/-- `VehicleListIdentifier::UnpackIfValid`: the returned flag and the object after the call. -/
def UnpackIfValid (VLT_END : Nat) (self : VehicleListIdentifier) (data : Nat) :
    Bool × VehicleListIdentifier :=
  let c := toUint16 (GB data 28 16)
  let self := { self with company := c }
  let self := { self with type := GB data 23 3 }
  let self := { self with vtype := GB data 26 2 }
  let self := { self with index := GB data 0 20 }
  (decide (self.type < VLT_END), self)

/-- `VehicleListIdentifier::UnPack`: `none` when `assert(ret)` fails. The local `result` starts
from an arbitrary value, every field of which `UnpackIfValid` overwrites. -/
def UnPack (VLT_END : Nat) (data : Nat) : Option VehicleListIdentifier :=
  let result : VehicleListIdentifier := ⟨0, 0, 0, 0⟩
  let r := UnpackIfValid VLT_END result data
  if r.1 then some r.2 else none

/-! ## misc_cmd.cpp -/

/-- Modelled from the spec: `Money::max()`; `Money` is `OverflowSafeInt<int64>`
(`core/overflowsafe_type.hpp`, not among the sources), so this is `2^63 - 1`. -/
def MONEY_MAX : Int := 9223372036854775807

/-- Modelled from the spec: the least value of `Money`, `-2^63`. -/
def MONEY_MIN : Int := -9223372036854775808

/-- A value that the type `Money` can hold. -/
def IsMoney (x : Int) : Prop := MONEY_MIN ≤ x ∧ x ≤ MONEY_MAX

instance (x : Int) : Decidable (IsMoney x) := by unfold IsMoney; infer_instance

/-- Modelled from the spec: the overflow protection of `Money` (the one the comment in
`CmdIncreaseLoan` refers to): a result outside the range of `int64` is replaced by the nearest
bound. -/
def Money.saturate (x : Int) : Int :=
  if x > MONEY_MAX then MONEY_MAX else if x < MONEY_MIN then MONEY_MIN else x

/-- Modelled from the spec: `operator+` and `operator+=` of `Money`. -/
def Money.add (a b : Int) : Int := Money.saturate (a + b)

/-- Modelled from the spec: `operator-` and `operator-=` of `Money`. -/
def Money.sub (a b : Int) : Int := Money.saturate (a - b)

/-- Modelled from the spec: `operator%` of `Money` with an `int` divisor, the remainder of C++
(truncated division). -/
def Money.mod (a : Int) (d : Int) : Int := Int.tmod a d

/-- Modelled from the spec: the messages of `table/strings.h` (generated, not among the sources)
that the two loan commands use, and `INVALID_STRING_ID`. -/
inductive StringID
  | INVALID_STRING_ID
  | STR_ERROR_MAXIMUM_PERMITTED_LOAN
  | STR_ERROR_LOAN_ALREADY_REPAYED
  | STR_ERROR_CURRENCY_REQUIRED
  deriving DecidableEq, Repr

/-- Modelled from the spec: the values of `ExpensesType` (`economy_type.h`, not among the
sources) that appear here. -/
inductive ExpensesType
  | EXPENSES_OTHER
  | INVALID_EXPENSES
  deriving DecidableEq, Repr

/-- Modelled from the spec: `CommandCost` of `command_type.h` (not among the sources): an
expense type, a cost, an error message and the success flag. -/
structure CommandCost where
  expense_type : ExpensesType
  cost : Int
  message : StringID
  success : Bool
  deriving DecidableEq, Repr

/-- Modelled from the spec: the constructor `CommandCost()`. -/
def CommandCost.ok : CommandCost :=
  ⟨ExpensesType.INVALID_EXPENSES, 0, StringID.INVALID_STRING_ID, true⟩

/-- Modelled from the spec: the constructor `CommandCost(ExpensesType)`. -/
def CommandCost.ofExpenses (ex_t : ExpensesType) : CommandCost :=
  ⟨ex_t, 0, StringID.INVALID_STRING_ID, true⟩

/-- Modelled from the spec: the constructor `CommandCost(StringID)`, which `return_cmd_error`
returns. -/
def CommandCost.error (msg : StringID) : CommandCost :=
  ⟨ExpensesType.INVALID_EXPENSES, 0, msg, false⟩

/-- Modelled from the spec: `CMD_ERROR`, the error without a message. -/
def CMD_ERROR : CommandCost := CommandCost.error StringID.INVALID_STRING_ID

/-- Modelled from the spec: `CommandCost::Failed`. -/
def CommandCost.Failed (r : CommandCost) : Bool := !r.success

/-- Modelled from the spec: `LoanCommand` of `misc_cmd.h` (not among the sources); `Invalid`
stands for every other value of the underlying byte, the `default:` of the two switches. -/
inductive LoanCommand
  | Interval
  | Max
  | Amount
  | Invalid
  deriving DecidableEq, Repr

/-- Modelled from the spec: the bit `DC_EXEC` of `DoCommandFlag` (`command_type.h`, not among the
sources). -/
def DC_EXEC : Nat := 1

/-- The fields of `Company` that the embedded functions read or write. -/
structure Company where
  money : Int
  current_loan : Int
  share_owners : List Nat
  deriving DecidableEq, Repr

/-- What a loan command leaves behind: the returned cost, the value handed to `SetDParam(0, _)`
if that was called, the company, and whether `InvalidateCompanyWindows` was called. -/
structure LoanResult where
  cost : CommandCost
  dparam : Option Int
  company : Company
  invalidated : Bool
  deriving DecidableEq, Repr

/-- `CmdIncreaseLoan`, for the company `c = Company::Get(_current_company)`; `LOAN_INTERVAL` (a
constant of `economy_type.h`) and `max_loan = _economy.max_loan` are not among the sources and
are parameters. -/
def CmdIncreaseLoan (LOAN_INTERVAL max_loan : Int) (c : Company) (flags : Nat)
    (cmd : LoanCommand) (amount : Int) : LoanResult :=
  if c.current_loan ≥ max_loan then
    ⟨CommandCost.error StringID.STR_ERROR_MAXIMUM_PERMITTED_LOAN, some max_loan, c, false⟩
  else
    let loan? : Option Int :=
      match cmd with
      | LoanCommand.Interval => some LOAN_INTERVAL
      | LoanCommand.Max => some (Money.sub max_loan c.current_loan)
      | LoanCommand.Amount =>
        let loan := amount
        if loan < LOAN_INTERVAL ∨ Money.add c.current_loan loan > max_loan
            ∨ Money.mod loan LOAN_INTERVAL ≠ 0 then none
        else some loan
      | LoanCommand.Invalid => none
    match loan? with
    | none => ⟨CMD_ERROR, none, c, false⟩
    | some loan =>
      if c.money > Money.sub MONEY_MAX loan then ⟨CMD_ERROR, none, c, false⟩
      else if flags &&& DC_EXEC ≠ 0 then
        ⟨CommandCost.ofExpenses ExpensesType.EXPENSES_OTHER, none,
          { c with money := Money.add c.money loan,
                   current_loan := Money.add c.current_loan loan }, true⟩
      else ⟨CommandCost.ofExpenses ExpensesType.EXPENSES_OTHER, none, c, false⟩

/-- The amount that the `switch` of `CmdDecreaseLoan` settles on; `none` where it returns
`CMD_ERROR`. -/
def decreaseLoanAmount (LOAN_INTERVAL : Int) (c : Company) (cmd : LoanCommand) (amount : Int) :
    Option Int :=
  match cmd with
  | LoanCommand.Interval => some (min c.current_loan LOAN_INTERVAL)
  | LoanCommand.Max =>
    let loan := max (min c.current_loan c.money) LOAN_INTERVAL
    some (Money.sub loan (Money.mod loan LOAN_INTERVAL))
  | LoanCommand.Amount =>
    let loan := amount
    if Money.mod loan LOAN_INTERVAL ≠ 0 ∨ loan < LOAN_INTERVAL ∨ loan > c.current_loan then
      none
    else some loan
  | LoanCommand.Invalid => none

/-- `CmdDecreaseLoan`, for the company `c = Company::Get(_current_company)`. -/
def CmdDecreaseLoan (LOAN_INTERVAL : Int) (c : Company) (flags : Nat) (cmd : LoanCommand)
    (amount : Int) : LoanResult :=
  if c.current_loan = 0 then
    ⟨CommandCost.error StringID.STR_ERROR_LOAN_ALREADY_REPAYED, none, c, false⟩
  else
    match decreaseLoanAmount LOAN_INTERVAL c cmd amount with
    | none => ⟨CMD_ERROR, none, c, false⟩
    | some loan =>
      if c.money < loan then
        ⟨CommandCost.error StringID.STR_ERROR_CURRENCY_REQUIRED, some loan, c, false⟩
      else if flags &&& DC_EXEC ≠ 0 then
        ⟨CommandCost.ok, none,
          { c with money := Money.sub c.money loan,
                   current_loan := Money.sub c.current_loan loan }, true⟩
      else ⟨CommandCost.ok, none, c, false⟩

/-! ## battle_royale_mode.cpp -/

/-- `INVALID_OWNER` of `company_type.h`. -/
def INVALID_OWNER : Nat := 0x2FF

/-- `INVALID_COMPANY` of `company_type.h`. -/
def INVALID_COMPANY : Nat := 0x2FF

/-- `COMPANY_SPECTATOR` of `company_type.h`. -/
def COMPANY_SPECTATOR : Nat := 0x2FF

/-- `MAX_COMPANY_SHARE_OWNERS` of `company_type.h`. -/
def MAX_COMPANY_SHARE_OWNERS : Nat := 10

/-- Modelled from the spec: the ticks of `std::chrono::steady_clock` in one second; time points
and durations are counted in nanoseconds. -/
def STEADY_CLOCK_PER_SECOND : Int := 1000000000

/-- `std::chrono::duration_cast<std::chrono::seconds>`, which truncates. -/
def toSeconds (d : Int) : Int := Int.tdiv d STEADY_CLOCK_PER_SECOND

/-- The conversion of a `uint32` to `int` (two's complement). -/
def toInt32 (u : Nat) : Int :=
  if u % 2 ^ 32 < 2 ^ 31 then (u % 2 ^ 32 : Nat) else (u % 2 ^ 32 : Nat) - 2 ^ 32

/-- The conversion of an `int` to `uint32`, which the comparison `_frame_counter <= announced`
applies to its right-hand side. -/
def toUint32 (i : Int) : Nat := (i % 2 ^ 32).toNat

/-- The conversion of an `int` to `byte`, for the parameter of `CmdBattleRoyaleModeCountdown`. -/
def toByte (i : Int) : Nat := (i % 2 ^ 8).toNat

/-- The fields of `NetworkClientInfo` that `BrmProcessGameTick` reads. -/
structure NetworkClientInfo where
  client_id : Nat
  client_playas : Nat
  deriving DecidableEq, Repr

/-- What the functions of `battle_royale_mode.cpp` do to the rest of the program. -/
inductive Effect
  /-- The call `Command<CMD_ANNOUNCE>::Do(DC_EXEC, caption, message, company)`. -/
  | do_announce (caption message : String) (company : Nat)
  /-- The call `Command<CMD_ANNOUNCE>::Post(caption, message, company)`; `callback` tells
  whether `CcBrmAnnounce` was passed as the callback. -/
  | post_announce (callback : Bool) (caption message : String) (company : Nat)
  /-- The call `Command<CMD_PAUSE>::Post(PM_PAUSED_NORMAL, pause)`. -/
  | post_pause (pause : Bool)
  /-- The call `Command<CMD_COMPANY_CTRL>::Post(CCA_DELETE, company, CRR_MANUAL,
  INVALID_CLIENT_ID)`. -/
  | post_company_ctrl_delete (company : Nat)
  /-- The call `Command<CMD_BATTLE_ROYALE_MODE_COUNTDOWN>::Post(timeout)`. -/
  | post_countdown (timeout : Nat)
  /-- The call `NetworkServerDoMove(client_id, company)`. -/
  | server_do_move (client_id company : Nat)
  deriving DecidableEq, Repr

/-- The globals and function-local statics of `battle_royale_mode.cpp`. The queue
`_eliminated_companies` is a list whose head is the front. -/
structure BrmState where
  _battle_royale : Bool
  _eliminated_companies : List Nat
  showed_game_over : Bool
  timeout : Int
  brm_start : Int
  announced : Int
  last_tick : Int
  posted : Bool
  deriving DecidableEq, Repr

/-- The state at program start: the initialisers of the globals and statics. -/
def BrmState.initial : BrmState :=
  { _battle_royale := false, _eliminated_companies := [], showed_game_over := false,
    timeout := -1, brm_start := 0, announced := 0, last_tick := 0, posted := false }

/-- The globals of other modules that the functions read: the network flags, the company ids, the
frame counters (`uint32`), the company pool (id and company, for `Company::GetIfValid` and
`Company::GetNumItems`), the clients of `NetworkClientInfo::Iterate()` and the reading of
`std::chrono::steady_clock::now()`. -/
structure Env where
  _networking : Bool
  _network_server : Bool
  _local_company : Nat
  _current_company : Nat
  _frame_counter : Nat
  _frame_counter_max : Nat
  pool : List (Nat × Company)
  clients : List NetworkClientInfo
  now : Int
  deriving DecidableEq

/-- `BrmLoadResetMode`. -/
def BrmLoadResetMode (s : BrmState) (new_value : Bool) : BrmState :=
  let s := { s with _battle_royale := new_value }
  if s._battle_royale then { s with showed_game_over := false } else s

/-- `CmdEnterBattleRoyaleMode`; `now` is the reading of the steady clock. -/
def CmdEnterBattleRoyaleMode (now : Int) (s : BrmState) (mode : Bool) : BrmState × CommandCost :=
  if s._battle_royale = mode then (s, CommandCost.ok)
  else
    let s := { s with _battle_royale := mode }
    let s := { s with timeout := if s._battle_royale then 10 else -1 }
    let s := { s with brm_start := now }
    let s := if s._battle_royale then { s with showed_game_over := false } else s
    (s, CommandCost.ok)

/-- The quotient `(float)n / (float)d` of IEEE 754 binary32 for `0 < d` and `n, d < 2^24` (both
conversions are then exact, and the quotient is zero or a normal number), as a pair `(m, e)`
that stands for `m / 2^e`: the exponent is the least `e` that brings the quotient to `2^23` or
more, and the 24-bit significand is rounded to nearest, ties to even. -/
def f32Div (n d : Nat) : Nat × Nat :=
  if n = 0 then (0, 0)
  else
    let e := ((List.range 64).find? (fun e => decide (d * 2 ^ 23 ≤ n * 2 ^ e))).getD 0
    let q := n * 2 ^ e / d
    let r := n * 2 ^ e % d
    let m := if d < 2 * r ∨ (2 * r = d ∧ q % 2 = 1) then q + 1 else q
    (m, e)

/-- The comparison `percentage < 0.75`: the `float` is widened to `double` without loss and
`0.75` is `3 / 4` exactly. -/
def f32LtThreeQuarters (p : Nat × Nat) : Bool := decide (4 * p.1 < 3 * 2 ^ p.2)

/-- `BrmProcessBuyCompanyShare`. -/
def BrmProcessBuyCompanyShare (env : Env) (s : BrmState) (target_company : Nat) :
    BrmState × List Effect :=
  if env._networking && !env._network_server then
    if env._local_company = target_company then
      let res := "Company " ++ toString env._current_company ++ " bought your shares."
      (s, [Effect.do_announce "Shares Bought" res env._local_company])
    else (s, [])
  else if !s._battle_royale then (s, [])
  else
    match env.pool.lookup target_company with
    | none => (s, [])
    | some c =>
      let count := c.share_owners.foldl
        (fun count so => if so ≠ INVALID_OWNER then count + 1 else count) 0
      let percentage := f32Div count MAX_COMPANY_SHARE_OWNERS
      if f32LtThreeQuarters percentage then (s, [])
      else ({ s with _eliminated_companies := s._eliminated_companies ++ [target_company] }, [])

/-- `CcBrmAnnounce`. -/
def CcBrmAnnounce (env : Env) (s : BrmState) : BrmState :=
  { s with announced := toInt32 ((env._frame_counter_max + 1) % 2 ^ 32) }

/-- What the `while` loop of `BrmProcessGameTick` leaves behind. -/
structure LoopResult where
  queue : List Nat
  posted : Bool
  announced : Int
  effects : List Effect
  /-- How many times the body of the loop was entered. -/
  iterations : Nat
  /-- Whether the body left the function with `return`. -/
  returned : Bool
  deriving DecidableEq, Repr

/-- The first of the two announcements of an elimination. -/
def announceEliminated (target_company : Nat) : Effect :=
  Effect.post_announce false "Company Eliminated"
    ("Company " ++ toString (target_company + 1) ++ " has been eliminated.") INVALID_COMPANY

/-- The second of the two announcements, sent to the eliminated company with `CcBrmAnnounce` as
callback. -/
def announceYouAreOut (target_company : Nat) : Effect :=
  Effect.post_announce true "You are out" "Your company was eliminated!" target_company

/-- The block `if (_network_server) { for (ci : NetworkClientInfo::Iterate()) ... }` of the loop:
on a server, every client that plays as `target_company` is moved to the spectators. -/
def spectatorMoves (env : Env) (target_company : Nat) : List Effect :=
  if env._network_server then
    (env.clients.filter (fun ci => ci.client_playas = target_company)).map
      (fun ci => Effect.server_do_move ci.client_id COMPANY_SPECTATOR)
  else []

/-- The `while (!_eliminated_companies.empty())` loop of `BrmProcessGameTick`, by recursion on
the queue: every pass either returns or pops the front. -/
def tickLoop (env : Env) : List Nat → Bool → Int → LoopResult
  | [], posted, announced => ⟨[], posted, announced, [], 0, false⟩
  | target_company :: rest, posted, announced =>
    if !posted then
      ⟨target_company :: rest, true, -1,
        [announceEliminated target_company, announceYouAreOut target_company], 1, true⟩
    else if env._network_server && posted
        && (announced == -1 || decide (env._frame_counter ≤ toUint32 announced)) then
      ⟨target_company :: rest, posted, announced, [], 1, true⟩
    else
      let r := tickLoop env rest false announced
      { r with
        effects := spectatorMoves env target_company
          ++ Effect.post_company_ctrl_delete target_company :: r.effects,
        iterations := r.iterations + 1 }

/-- What one call of `BrmProcessGameTick` leaves behind. -/
structure TickResult where
  state : BrmState
  effects : List Effect
  iterations : Nat

/-- `BrmProcessGameTick`. -/
def BrmProcessGameTick (env : Env) (s : BrmState) : TickResult :=
  if env._networking && !env._network_server then ⟨s, [], 0⟩
  else
    let over := s._battle_royale && env.pool.length == 1 && !s.showed_game_over
    let eff1 :=
      if over then
        [Effect.post_pause true,
          Effect.post_announce false "Game Over" "Only one company left" INVALID_COMPANY]
      else []
    let s := if over then { s with showed_game_over := true } else s
    let r := tickLoop env s._eliminated_companies s.posted s.announced
    let s := { s with _eliminated_companies := r.queue, posted := r.posted,
                      announced := r.announced }
    if r.returned then ⟨s, eff1 ++ r.effects, r.iterations⟩
    else if !env._networking then ⟨s, eff1 ++ r.effects, r.iterations⟩
    else if s.timeout = -1 then ⟨s, eff1 ++ r.effects, r.iterations⟩
    else
      let tick := env.now - s.brm_start
      if toSeconds s.last_tick = toSeconds tick then ⟨s, eff1 ++ r.effects, r.iterations⟩
      else
        let s := { s with last_tick := tick }
        let s := { s with timeout := s.timeout - 1 }
        let eff2 := [Effect.post_countdown (toByte s.timeout)]
        if s.timeout = 0 then
          ⟨{ s with timeout := -1 }, eff1 ++ r.effects ++ eff2 ++ [Effect.post_pause false],
            r.iterations⟩
        else ⟨s, eff1 ++ r.effects ++ eff2, r.iterations⟩

/-- The calls that reach `battle_royale_mode.cpp`, each with the globals it finds.
`announce_callback` is `CcBrmAnnounce`, which the command system calls once the announcement
posted with it has been executed. Were it called from inside `Post` itself, the assignment
`announced = -1` that follows the `Post` would overwrite what it stored, so that the state after
`BrmProcessGameTick` is the embedded one in that case too. -/
inductive Event
  | tick (env : Env)
  | buy_share (env : Env) (target_company : Nat)
  | announce_callback (env : Env)
  | enter_mode (now : Int) (mode : Bool)
  | load_reset (new_value : Bool)
  deriving DecidableEq

/-- One call: the state after it and what it did. -/
def step (s : BrmState) : Event → BrmState × List Effect
  | Event.tick env => ((BrmProcessGameTick env s).state, (BrmProcessGameTick env s).effects)
  | Event.buy_share env target_company => BrmProcessBuyCompanyShare env s target_company
  | Event.announce_callback env => (CcBrmAnnounce env s, [])
  | Event.enter_mode now mode => ((CmdEnterBattleRoyaleMode now s mode).1, [])
  | Event.load_reset new_value => (BrmLoadResetMode s new_value, [])

/-- A run of calls from the state `s`: every call with what it did, in order. -/
def run : BrmState → List Event → List (Event × List Effect)
  | _, [] => []
  | s, e :: es => (e, (step s e).2) :: run (step s e).1 es

/-- The state after a run of calls. -/
def runState : BrmState → List Event → BrmState
  | s, [] => s
  | s, e :: es => runState (step s e).1 es

/-- The number of share slots of a company that are owned, that is, differ from
`INVALID_OWNER`. -/
def ownedShares (c : Company) : Nat := c.share_owners.countP (fun so => so != INVALID_OWNER)

/-! ## Notions used in the statements -/

/-- The guard of the second `return` of the loop: the server still waits for the callback. -/
def serverWaits (env : Env) (announced : Int) : Bool :=
  env._network_server && (announced == -1 || decide (env._frame_counter ≤ toUint32 announced))

/-- Both announcements of the elimination of `x` are among the effects. -/
def Announced (x : Nat) (effs : List Effect) : Prop :=
  announceEliminated x ∈ effs ∧ announceYouAreOut x ∈ effs

/-- What the flag `posted` stands for after the calls recorded in `hist`: when it is set, the
queue has a front, some earlier call of `BrmProcessGameTick` posted both announcements for that
front, and `announced` is `-1` unless `CcBrmAnnounce` ran after that call, in which case it holds
the frame that the callback recorded. -/
def BrmInv (hist : List (Event × List Effect)) (s : BrmState) : Prop :=
  s.posted = true →
    ∃ x rest, s._eliminated_companies = x :: rest
      ∧ ∃ pre envA effsA mid, hist = pre ++ (Event.tick envA, effsA) :: mid
        ∧ Announced x effsA
        ∧ (s.announced = -1
          ∨ ∃ mid1 envC mid2, mid = mid1 ++ (Event.announce_callback envC, []) :: mid2
            ∧ s.announced = toInt32 ((envC._frame_counter_max + 1) % 2 ^ 32))

/-- The deletion of `x` by a call with the globals `env` is backed by the calls recorded in
`hist`: an earlier call of `BrmProcessGameTick` posted both announcements for `x`, and if the
deleting call runs on a network server, `CcBrmAnnounce` ran in between and the frame counter of
the deleting call exceeds the frame that the callback recorded. -/
def DeleteJustified (hist : List (Event × List Effect)) (env : Env) (x : Nat) : Prop :=
  ∃ pre envA effsA mid, hist = pre ++ (Event.tick envA, effsA) :: mid
    ∧ Announced x effsA
    ∧ (env._network_server = true →
        ∃ mid1 envC mid2, mid = mid1 ++ (Event.announce_callback envC, []) :: mid2
          ∧ (envC._frame_counter_max + 1) % 2 ^ 32 < env._frame_counter)

/-- The companies for which the effects hold a `CMD_COMPANY_CTRL` deletion, in order. -/
def deletions (effs : List Effect) : List Nat :=
  effs.filterMap (fun e =>
    match e with
    | Effect.post_company_ctrl_delete x => some x
    | _ => none)

/-- The company that a call appends to the queue: the target of a `BrmProcessBuyCompanyShare`
that changes the queue. -/
def appended (s : BrmState) : Event → List Nat
  | Event.buy_share env target_company =>
    if (BrmProcessBuyCompanyShare env s target_company).1._eliminated_companies
        = s._eliminated_companies then []
    else [target_company]
  | _ => []

/-- The companies appended to the queue along a run, in order. -/
def runAppended : BrmState → List Event → List Nat
  | _, [] => []
  | s, e :: es => appended s e ++ runAppended (step s e).1 es

/-- The companies whose deletion is posted along a run, in order. -/
def runDeletions : BrmState → List Event → List Nat
  | _, [] => []
  | s, e :: es => deletions (step s e).2 ++ runDeletions (step s e).1 es

/-- A game of two companies, numbers 3 and 4, for the examples: company 3 has 8 of its 10 share
slots owned, company 4 has 7; the first three arguments are `_networking`, `_network_server`
and the frame counter, which also serves as `_frame_counter_max`. -/
def exampleEnv (networking network_server : Bool) (frame : Nat) : Env :=
  { _networking := networking, _network_server := network_server, _local_company := 4,
    _current_company := 4, _frame_counter := frame, _frame_counter_max := frame,
    pool := [(3, ⟨0, 0, [4, 4, 4, 4, 4, 4, 4, 4, 0x2FF, 0x2FF]⟩),
             (4, ⟨0, 0, [3, 3, 3, 3, 3, 3, 3, 0x2FF, 0x2FF, 0x2FF]⟩)],
    clients := [⟨1, 3⟩, ⟨2, 4⟩], now := 0 }

/-! # Theorems -/

/-! ### Bit-field lemmas -/

theorem GB_eq_div_mod (x s n : Nat) : GB x s n = x / 2 ^ s % 2 ^ n := by
  unfold GB
  rw [Nat.shiftRight_eq_div_pow, Nat.shiftLeft_eq, Nat.one_mul, Nat.and_pow_two_sub_one_eq_mod]

/-- The word built by `Pack`, as a sum of the shifted fields. -/
theorem packed_word_eq (c t v i : Nat) (hc : c < 2 ^ 16) (ht : t < 2 ^ 3) (hv : v < 2 ^ 2)
    (hi : i < 2 ^ 20) :
    (shl64 (toUint64 (toUint16 c)) 28 ||| shl64 (toUint64 t) 23 ||| shl64 (toUint64 v) 26
      ||| toUint64 i) = 2 ^ 28 * c + 2 ^ 26 * v + 2 ^ 23 * t + i := by
  have e1 : shl64 (toUint64 (toUint16 c)) 28 = 2 ^ 28 * c := by
    unfold shl64 toUint64 toUint16
    rw [Nat.shiftLeft_eq]; omega
  have e2 : shl64 (toUint64 t) 23 = 2 ^ 23 * t := by
    unfold shl64 toUint64
    rw [Nat.shiftLeft_eq]; omega
  have e3 : shl64 (toUint64 v) 26 = 2 ^ 26 * v := by
    unfold shl64 toUint64
    rw [Nat.shiftLeft_eq]; omega
  have e4 : toUint64 i = i := by unfold toUint64; omega
  rw [e1, e2, e3, e4]
  have a1 : 2 ^ 23 * t ||| i = 2 ^ 23 * t + i :=
    (Nat.mul_add_lt_is_or (by omega) t).symm
  have a2 : 2 ^ 26 * v ||| (2 ^ 23 * t + i) = 2 ^ 26 * v + (2 ^ 23 * t + i) :=
    (Nat.mul_add_lt_is_or (by omega) v).symm
  have a3 : 2 ^ 28 * c ||| (2 ^ 26 * v + (2 ^ 23 * t + i))
      = 2 ^ 28 * c + (2 ^ 26 * v + (2 ^ 23 * t + i)) :=
    (Nat.mul_add_lt_is_or (by omega) c).symm
  calc 2 ^ 28 * c ||| 2 ^ 23 * t ||| 2 ^ 26 * v ||| i
      = 2 ^ 28 * c ||| (2 ^ 26 * v ||| (2 ^ 23 * t ||| i)) := by
        rw [Nat.or_assoc, Nat.or_assoc, ← Nat.or_assoc (2 ^ 23 * t), Nat.or_comm (2 ^ 23 * t),
          Nat.or_assoc]
    _ = 2 ^ 28 * c + 2 ^ 26 * v + 2 ^ 23 * t + i := by rw [a1, a2, a3]; omega

/-- What `UnpackIfValid` stores, as quotients and remainders of `data`. -/
theorem UnpackIfValid_fields (VLT_END : Nat) (self : VehicleListIdentifier) (data : Nat) :
    UnpackIfValid VLT_END self data
      = (decide (data / 2 ^ 23 % 2 ^ 3 < VLT_END),
          { type := data / 2 ^ 23 % 2 ^ 3, vtype := data / 2 ^ 26 % 2 ^ 2,
            company := data / 2 ^ 28 % 2 ^ 16, index := data % 2 ^ 20 }) := by
  have hc : toUint16 (data / 2 ^ 28 % 2 ^ 16) = data / 2 ^ 28 % 2 ^ 16 := by
    unfold toUint16; omega
  simp only [UnpackIfValid, GB_eq_div_mod, hc, Nat.pow_zero, Nat.div_one]

/-- Unpacking the word that `Pack` builds gives the fields back. -/
theorem unpack_packed_word (VLT_END : Nat) (self : VehicleListIdentifier) (c t v i : Nat)
    (hc : c < 2 ^ 16) (ht : t < 2 ^ 3) (hv : v < 2 ^ 2) (hi : i < 2 ^ 20) :
    UnpackIfValid VLT_END self (2 ^ 28 * c + 2 ^ 26 * v + 2 ^ 23 * t + i)
      = (decide (t < VLT_END), { type := t, vtype := v, company := c, index := i }) := by
  rw [UnpackIfValid_fields]
  have h1 : (2 ^ 28 * c + 2 ^ 26 * v + 2 ^ 23 * t + i) / 2 ^ 23 % 2 ^ 3 = t := by omega
  have h2 : (2 ^ 28 * c + 2 ^ 26 * v + 2 ^ 23 * t + i) / 2 ^ 26 % 2 ^ 2 = v := by omega
  have h3 : (2 ^ 28 * c + 2 ^ 26 * v + 2 ^ 23 * t + i) / 2 ^ 28 % 2 ^ 16 = c := by omega
  have h4 : (2 ^ 28 * c + 2 ^ 26 * v + 2 ^ 23 * t + i) % 2 ^ 20 = i := by omega
  rw [h1, h2, h3, h4]

/-- `Pack` on an identifier that meets its assertions. -/
theorem Pack_eq_some (VLT_END : Nat) (hE : VLT_END ≤ 8) (id : VehicleListIdentifier)
    (hv : id.vtype < 4) (hi : id.index < 2 ^ 20) (ht : id.type < VLT_END)
    (hc : id.company < 2 ^ 16) :
    Pack VLT_END id
      = some (2 ^ 28 * id.company + 2 ^ 26 * id.vtype + 2 ^ 23 * id.type + id.index) := by
  have hA : PackAsserts VLT_END id := by
    unfold PackAsserts
    simp only [Nat.shiftLeft_eq]
    omega
  simp only [Pack, hA, if_true]
  rw [packed_word_eq id.company id.type id.vtype id.index hc (by omega) (by omega) hi]

/-- C1: for every identifier with `vtype < 4`, `index < 2^20`, `type < VLT_END` (where
`VLT_END <= 8`) and a 16-bit company, `Pack` yields a word on which `UnpackIfValid` returns
true and stores exactly the fields of the identifier, whatever the object held before; hence
`UnPack` of that word is the identifier, and two such identifiers with the same packed word are
equal. -/
theorem C1_pack_unpack_roundtrip (VLT_END : Nat) (hE : VLT_END ≤ 8)
    (id : VehicleListIdentifier) (hv : id.vtype < 4) (hi : id.index < 2 ^ 20)
    (ht : id.type < VLT_END) (hc : id.company < 2 ^ 16) :
    (∃ w, Pack VLT_END id = some w ∧ w < 2 ^ 64
        ∧ (∀ self, UnpackIfValid VLT_END self w = (true, id))
        ∧ UnPack VLT_END w = some id)
      ∧ ∀ id2 : VehicleListIdentifier, id2.vtype < 4 → id2.index < 2 ^ 20 →
          id2.type < VLT_END → id2.company < 2 ^ 16 →
          Pack VLT_END id2 = Pack VLT_END id → id2 = id := by
  have key : ∀ j : VehicleListIdentifier, j.vtype < 4 → j.index < 2 ^ 20 →
      j.type < VLT_END → j.company < 2 ^ 16 → ∀ self,
      UnpackIfValid VLT_END self (2 ^ 28 * j.company + 2 ^ 26 * j.vtype + 2 ^ 23 * j.type + j.index)
        = (true, j) := by
    intro j jv ji jt jc self
    rw [unpack_packed_word VLT_END self j.company j.type j.vtype j.index jc (by omega)
      (by omega) ji]
    simp [jt]
  refine ⟨⟨_, Pack_eq_some VLT_END hE id hv hi ht hc, by omega, key id hv hi ht hc, ?_⟩, ?_⟩
  · unfold UnPack
    simp only [key id hv hi ht hc, if_true]
  · intro id2 h2v h2i h2t h2c hp
    rw [Pack_eq_some VLT_END hE id hv hi ht hc, Pack_eq_some VLT_END hE id2 h2v h2i h2t h2c] at hp
    have hw := Option.some.inj hp
    have a := key id hv hi ht hc id
    have b := key id2 h2v h2i h2t h2c id
    rw [hw] at b
    rw [a] at b
    exact (Prod.mk.inj b).2.symm

/-- C1 at the identifier with type 4, vehicle type 3, company `0x2FF` and index `1048575`, for
`VLT_END = 5`. -/
theorem C1_pack_unpack_roundtrip_witness :
    (∃ w, Pack 5 ⟨4, 3, 0x2FF, 1048575⟩ = some w ∧ w < 2 ^ 64
        ∧ (∀ self, UnpackIfValid 5 self w = (true, ⟨4, 3, 0x2FF, 1048575⟩))
        ∧ UnPack 5 w = some ⟨4, 3, 0x2FF, 1048575⟩)
      ∧ ∀ id2 : VehicleListIdentifier, id2.vtype < 4 → id2.index < 2 ^ 20 →
          id2.type < 5 → id2.company < 2 ^ 16 →
          Pack 5 id2 = Pack 5 ⟨4, 3, 0x2FF, 1048575⟩ → id2 = ⟨4, 3, 0x2FF, 1048575⟩ :=
  C1_pack_unpack_roundtrip 5 (by decide) ⟨4, 3, 0x2FF, 1048575⟩ (by decide) (by decide)
    (by decide) (by decide)

/-- C2: for every `data` (every 64-bit value among them), `UnpackIfValid` returns true exactly when bits 23..25 of `data`
are below `VLT_END`; in both cases it stores bits 28..43 as company, bits 26..27 as vehicle
type, bits 23..25 as type and bits 0..19 as index; and when it returns true the stored
identifier meets the three assertions of `Pack`, so that `Pack` does not fail on it. -/
theorem C2_unpack_if_valid (VLT_END : Nat) (self : VehicleListIdentifier) (data : Nat) :
    ((UnpackIfValid VLT_END self data).1 = true ↔ data / 2 ^ 23 % 2 ^ 3 < VLT_END)
      ∧ (UnpackIfValid VLT_END self data).2.company = data / 2 ^ 28 % 2 ^ 16
      ∧ (UnpackIfValid VLT_END self data).2.vtype = data / 2 ^ 26 % 2 ^ 2
      ∧ (UnpackIfValid VLT_END self data).2.type = data / 2 ^ 23 % 2 ^ 3
      ∧ (UnpackIfValid VLT_END self data).2.index = data % 2 ^ 20
      ∧ ((UnpackIfValid VLT_END self data).1 = true →
          PackAsserts VLT_END (UnpackIfValid VLT_END self data).2
            ∧ (Pack VLT_END (UnpackIfValid VLT_END self data).2).isSome = true) := by
  rw [UnpackIfValid_fields]
  refine ⟨by simp, rfl, rfl, rfl, rfl, ?_⟩
  intro h
  have ht : data / 2 ^ 23 % 2 ^ 3 < VLT_END := by simpa using h
  have hA : PackAsserts VLT_END
      { type := data / 2 ^ 23 % 2 ^ 3, vtype := data / 2 ^ 26 % 2 ^ 2,
        company := data / 2 ^ 28 % 2 ^ 16, index := data % 2 ^ 20 } := by
    unfold PackAsserts
    simp only [Nat.shiftLeft_eq]
    omega
  refine ⟨hA, ?_⟩
  simp only [Pack, hA, if_true, Option.isSome_some]

/-- C2 at `data = 0x2FFE7FFFFF` with `VLT_END = 5`, starting from an object that holds other
values. -/
theorem C2_unpack_if_valid_witness :
    ((UnpackIfValid 5 ⟨1, 2, 3, 4⟩ 0x2FFE7FFFFF).1 = true ↔ 0x2FFE7FFFFF / 2 ^ 23 % 2 ^ 3 < 5)
      ∧ (UnpackIfValid 5 ⟨1, 2, 3, 4⟩ 0x2FFE7FFFFF).2.company = 0x2FFE7FFFFF / 2 ^ 28 % 2 ^ 16
      ∧ (UnpackIfValid 5 ⟨1, 2, 3, 4⟩ 0x2FFE7FFFFF).2.vtype = 0x2FFE7FFFFF / 2 ^ 26 % 2 ^ 2
      ∧ (UnpackIfValid 5 ⟨1, 2, 3, 4⟩ 0x2FFE7FFFFF).2.type = 0x2FFE7FFFFF / 2 ^ 23 % 2 ^ 3
      ∧ (UnpackIfValid 5 ⟨1, 2, 3, 4⟩ 0x2FFE7FFFFF).2.index = 0x2FFE7FFFFF % 2 ^ 20
      ∧ ((UnpackIfValid 5 ⟨1, 2, 3, 4⟩ 0x2FFE7FFFFF).1 = true →
          PackAsserts 5 (UnpackIfValid 5 ⟨1, 2, 3, 4⟩ 0x2FFE7FFFFF).2
            ∧ (Pack 5 (UnpackIfValid 5 ⟨1, 2, 3, 4⟩ 0x2FFE7FFFFF).2).isSome = true) :=
  C2_unpack_if_valid 5 ⟨1, 2, 3, 4⟩ 0x2FFE7FFFFF

/-! ### The loan commands -/

theorem Money.saturate_eq {x : Int} (h : IsMoney x) : Money.saturate x = x := by
  unfold IsMoney MONEY_MIN MONEY_MAX at h
  unfold Money.saturate MONEY_MIN MONEY_MAX
  omega

/-- `CmdIncreaseLoan` with an amount, unfolded: the chain of its four exits. -/
theorem CmdIncreaseLoan_amount (LOAN_INTERVAL max_loan : Int) (c : Company) (flags : Nat)
    (amount : Int) :
    CmdIncreaseLoan LOAN_INTERVAL max_loan c flags LoanCommand.Amount amount
      = if c.current_loan ≥ max_loan then
          ⟨CommandCost.error StringID.STR_ERROR_MAXIMUM_PERMITTED_LOAN, some max_loan, c, false⟩
        else if amount < LOAN_INTERVAL ∨ Money.add c.current_loan amount > max_loan
            ∨ Money.mod amount LOAN_INTERVAL ≠ 0 then ⟨CMD_ERROR, none, c, false⟩
        else if c.money > Money.sub MONEY_MAX amount then ⟨CMD_ERROR, none, c, false⟩
        else if flags &&& DC_EXEC ≠ 0 then
          ⟨CommandCost.ofExpenses ExpensesType.EXPENSES_OTHER, none,
            { c with money := Money.add c.money amount,
                     current_loan := Money.add c.current_loan amount }, true⟩
        else ⟨CommandCost.ofExpenses ExpensesType.EXPENSES_OTHER, none, c, false⟩ := by
  unfold CmdIncreaseLoan
  by_cases h1 : c.current_loan ≥ max_loan
  · simp only [h1, if_true]
  · simp only [h1, if_false]
    by_cases h2 : amount < LOAN_INTERVAL ∨ Money.add c.current_loan amount > max_loan
        ∨ Money.mod amount LOAN_INTERVAL ≠ 0
    · simp only [h2, if_true]
    · simp only [h2, if_false]

/-- What a successful `CmdIncreaseLoan` with an amount tells about the state. -/
theorem CmdIncreaseLoan_amount_success (LOAN_INTERVAL max_loan : Int) (c : Company)
    (flags : Nat) (amount : Int)
    (hs : (CmdIncreaseLoan LOAN_INTERVAL max_loan c flags LoanCommand.Amount amount).cost.success
      = true) :
    c.current_loan < max_loan ∧ LOAN_INTERVAL ≤ amount
      ∧ Money.add c.current_loan amount ≤ max_loan ∧ Money.mod amount LOAN_INTERVAL = 0
      ∧ c.money ≤ Money.sub MONEY_MAX amount := by
  rw [CmdIncreaseLoan_amount] at hs
  by_cases h1 : c.current_loan ≥ max_loan
  · simp [h1, CommandCost.error] at hs
  · by_cases h2 : amount < LOAN_INTERVAL ∨ Money.add c.current_loan amount > max_loan
        ∨ Money.mod amount LOAN_INTERVAL ≠ 0
    · simp [h1, h2, CMD_ERROR, CommandCost.error] at hs
    · by_cases h3 : c.money > Money.sub MONEY_MAX amount
      · simp [h1, h2, h3, CMD_ERROR, CommandCost.error] at hs
      · simp only [not_or, not_lt, not_not, gt_iff_lt, ne_eq] at h2
        exact ⟨by omega, h2.1, h2.2.1, h2.2.2, by omega⟩

/-- On success with an amount, under `0 < LOAN_INTERVAL` and `max_loan < Money::max()`,
neither sum saturates. -/
theorem increase_amount_exact (LOAN_INTERVAL max_loan : Int) (c : Company) (amount : Int)
    (hLI : 0 < LOAN_INTERVAL) (hmax : max_loan < MONEY_MAX) (hm : MONEY_MIN ≤ c.money)
    (hl : MONEY_MIN ≤ c.current_loan) (h1 : LOAN_INTERVAL ≤ amount)
    (h2 : Money.add c.current_loan amount ≤ max_loan)
    (h3 : c.money ≤ Money.sub MONEY_MAX amount) :
    Money.add c.money amount = c.money + amount
      ∧ Money.add c.current_loan amount = c.current_loan + amount
      ∧ c.current_loan + amount ≤ max_loan ∧ c.money + amount ≤ MONEY_MAX := by
  unfold Money.add Money.saturate at *
  unfold Money.sub Money.saturate at h3
  unfold MONEY_MAX MONEY_MIN at *
  omega

/-- C3 (amended): with `0 < LOAN_INTERVAL` and `max_loan < Money::max()`, for every company
with `money >= 0` and `current_loan >= 0` and every amount, if
`CmdIncreaseLoan(DC_EXEC, LoanCommand::Amount, amount)` succeeds then money and current loan
each rose by exactly `amount`, and `CmdDecreaseLoan(DC_EXEC, LoanCommand::Amount, amount)` right
after it succeeds and gives the original company back. -/
theorem C3_loan_roundtrip (LOAN_INTERVAL max_loan : Int) (c : Company) (flags : Nat)
    (amount : Int) (hLI : 0 < LOAN_INTERVAL) (hmax : max_loan < MONEY_MAX)
    (hm : 0 ≤ c.money) (hl : 0 ≤ c.current_loan) (hexec : flags &&& DC_EXEC ≠ 0)
    (hs : (CmdIncreaseLoan LOAN_INTERVAL max_loan c flags LoanCommand.Amount amount).cost.success
      = true) :
    (CmdIncreaseLoan LOAN_INTERVAL max_loan c flags LoanCommand.Amount amount).company.money
        = c.money + amount
      ∧ (CmdIncreaseLoan LOAN_INTERVAL max_loan c flags LoanCommand.Amount
          amount).company.current_loan = c.current_loan + amount
      ∧ (CmdDecreaseLoan LOAN_INTERVAL
          (CmdIncreaseLoan LOAN_INTERVAL max_loan c flags LoanCommand.Amount amount).company
          flags LoanCommand.Amount amount).cost.success = true
      ∧ (CmdDecreaseLoan LOAN_INTERVAL
          (CmdIncreaseLoan LOAN_INTERVAL max_loan c flags LoanCommand.Amount amount).company
          flags LoanCommand.Amount amount).company = c := by
  obtain ⟨s1, s2, s3, s4, s5⟩ :=
    CmdIncreaseLoan_amount_success LOAN_INTERVAL max_loan c flags amount hs
  obtain ⟨e1, e2, e3, e4⟩ := increase_amount_exact LOAN_INTERVAL max_loan c amount hLI hmax
    (by unfold MONEY_MIN; omega) (by unfold MONEY_MIN; omega) s2 s3 s5
  have hinc : CmdIncreaseLoan LOAN_INTERVAL max_loan c flags LoanCommand.Amount amount
      = ⟨CommandCost.ofExpenses ExpensesType.EXPENSES_OTHER, none,
          { c with money := c.money + amount, current_loan := c.current_loan + amount },
          true⟩ := by
    rw [CmdIncreaseLoan_amount]
    have n1 : ¬ c.current_loan ≥ max_loan := by omega
    have n2 : ¬ (amount < LOAN_INTERVAL ∨ Money.add c.current_loan amount > max_loan
        ∨ Money.mod amount LOAN_INTERVAL ≠ 0) := by
      simp only [not_or, not_lt, not_not, gt_iff_lt, ne_eq]
      exact ⟨s2, s3, s4⟩
    have n3 : ¬ c.money > Money.sub MONEY_MAX amount := by omega
    rw [if_neg n1, if_neg n2, if_neg n3, if_pos hexec, e1, e2]
  rw [hinc]
  refine ⟨rfl, rfl, ?_⟩
  have d1 : ¬ (c.current_loan + amount = 0) := by omega
  have d2 : ¬ (Money.mod amount LOAN_INTERVAL ≠ 0 ∨ amount < LOAN_INTERVAL
      ∨ amount > c.current_loan + amount) := by
    simp only [not_or, not_lt, not_not, gt_iff_lt, ne_eq]
    exact ⟨s4, s2, by omega⟩
  have d3 : ¬ (c.money + amount < amount) := by omega
  have b1 : Money.sub (c.money + amount) amount = c.money := by
    unfold Money.sub Money.saturate MONEY_MIN
    unfold MONEY_MAX at *
    omega
  have b2 : Money.sub (c.current_loan + amount) amount = c.current_loan := by
    unfold Money.sub Money.saturate MONEY_MIN
    unfold MONEY_MAX at *
    omega
  have hd : decreaseLoanAmount LOAN_INTERVAL
      { c with money := c.money + amount, current_loan := c.current_loan + amount }
      LoanCommand.Amount amount = some amount := by
    simp only [decreaseLoanAmount]
    rw [if_neg d2]
  unfold CmdDecreaseLoan
  rw [hd]
  simp only
  rw [if_neg d1, if_neg d3, if_pos hexec, b1, b2]
  exact ⟨rfl, rfl⟩

/-- C3 (amended) at a company with 500000 in the bank and a loan of 100000, borrowing and
repaying 20000 with `LOAN_INTERVAL = 10000` and `max_loan = 300000`. -/
theorem C3_loan_roundtrip_witness :
    (CmdIncreaseLoan 10000 300000 ⟨500000, 100000, []⟩ 1 LoanCommand.Amount 20000).company.money
        = 500000 + 20000
      ∧ (CmdIncreaseLoan 10000 300000 ⟨500000, 100000, []⟩ 1 LoanCommand.Amount
          20000).company.current_loan = 100000 + 20000
      ∧ (CmdDecreaseLoan 10000
          (CmdIncreaseLoan 10000 300000 ⟨500000, 100000, []⟩ 1 LoanCommand.Amount 20000).company
          1 LoanCommand.Amount 20000).cost.success = true
      ∧ (CmdDecreaseLoan 10000
          (CmdIncreaseLoan 10000 300000 ⟨500000, 100000, []⟩ 1 LoanCommand.Amount 20000).company
          1 LoanCommand.Amount 20000).company = ⟨500000, 100000, []⟩ :=
  C3_loan_roundtrip 10000 300000 ⟨500000, 100000, []⟩ 1 20000 (by decide) (by decide) (by decide)
    (by decide) (by decide) (by decide)

/-- C3 as stated fails when `max_loan` is `Money::max()`: with `LOAN_INTERVAL = 10000`, no
money and a loan of `Money::max() - 1`, borrowing 10000 under `DC_EXEC` succeeds, the loan
saturates at `Money::max()` (it rises by 1, not by 10000), and repaying 10000 right after
succeeds but leaves a loan of `Money::max() - 10000`, not the original one. -/
theorem C3_counterexample :
    (0 : Int) ≤ (⟨0, 9223372036854775806, []⟩ : Company).money
      ∧ (0 : Int) ≤ (⟨0, 9223372036854775806, []⟩ : Company).current_loan
      ∧ (CmdIncreaseLoan 10000 MONEY_MAX ⟨0, 9223372036854775806, []⟩ DC_EXEC LoanCommand.Amount
          10000).cost.success = true
      ∧ (CmdIncreaseLoan 10000 MONEY_MAX ⟨0, 9223372036854775806, []⟩ DC_EXEC LoanCommand.Amount
          10000).company.current_loan ≠ 9223372036854775806 + 10000
      ∧ (CmdDecreaseLoan 10000
          (CmdIncreaseLoan 10000 MONEY_MAX ⟨0, 9223372036854775806, []⟩ DC_EXEC
            LoanCommand.Amount 10000).company DC_EXEC LoanCommand.Amount 10000).cost.success
          = true
      ∧ (CmdDecreaseLoan 10000
          (CmdIncreaseLoan 10000 MONEY_MAX ⟨0, 9223372036854775806, []⟩ DC_EXEC
            LoanCommand.Amount 10000).company DC_EXEC LoanCommand.Amount 10000).company
          = ⟨0, 9223372036854765807, []⟩
      ∧ (CmdDecreaseLoan 10000
          (CmdIncreaseLoan 10000 MONEY_MAX ⟨0, 9223372036854775806, []⟩ DC_EXEC
            LoanCommand.Amount 10000).company DC_EXEC LoanCommand.Amount 10000).company
          ≠ ⟨0, 9223372036854775806, []⟩ := by
  decide

/-- C4 (amended): with `0 < LOAN_INTERVAL`, `max_loan < Money::max()` and money, loan and amount
in the range of `Money`: when `current_loan < max_loan`, `CmdIncreaseLoan` with
`LoanCommand::Amount` fails exactly when `amount < LOAN_INTERVAL`, or `amount` is not a multiple
of `LOAN_INTERVAL`, or `current_loan + amount > max_loan`, or `money > Money::max() - amount`,
and then leaves the company alone; otherwise it returns the zero cost of type `EXPENSES_OTHER`
and under `DC_EXEC` adds exactly `amount` to money and to the loan. For every `cmd`, when
`current_loan >= max_loan` it returns the error `STR_ERROR_MAXIMUM_PERMITTED_LOAN` and leaves
the company alone. -/
theorem C4_increase_loan (LOAN_INTERVAL max_loan : Int) (c : Company) (flags : Nat)
    (amount : Int) (hLI : 0 < LOAN_INTERVAL) (hmax : max_loan < MONEY_MAX)
    (hm : IsMoney c.money) (hl : IsMoney c.current_loan) (ha : IsMoney amount) :
    (c.current_loan < max_loan →
        ((CmdIncreaseLoan LOAN_INTERVAL max_loan c flags LoanCommand.Amount amount).cost.success
            = false
          ↔ (amount < LOAN_INTERVAL ∨ ¬ LOAN_INTERVAL ∣ amount
              ∨ c.current_loan + amount > max_loan ∨ c.money > MONEY_MAX - amount))
        ∧ ((CmdIncreaseLoan LOAN_INTERVAL max_loan c flags LoanCommand.Amount
              amount).cost.success = false →
            (CmdIncreaseLoan LOAN_INTERVAL max_loan c flags LoanCommand.Amount amount).company
              = c)
        ∧ ((CmdIncreaseLoan LOAN_INTERVAL max_loan c flags LoanCommand.Amount
              amount).cost.success = true →
            (CmdIncreaseLoan LOAN_INTERVAL max_loan c flags LoanCommand.Amount amount).cost
                = CommandCost.ofExpenses ExpensesType.EXPENSES_OTHER
              ∧ (CmdIncreaseLoan LOAN_INTERVAL max_loan c flags LoanCommand.Amount
                  amount).cost.cost = 0
              ∧ (flags &&& DC_EXEC ≠ 0 →
                  (CmdIncreaseLoan LOAN_INTERVAL max_loan c flags LoanCommand.Amount
                      amount).company.money = c.money + amount
                    ∧ (CmdIncreaseLoan LOAN_INTERVAL max_loan c flags LoanCommand.Amount
                      amount).company.current_loan = c.current_loan + amount)))
      ∧ ∀ cmd : LoanCommand, c.current_loan ≥ max_loan →
          (CmdIncreaseLoan LOAN_INTERVAL max_loan c flags cmd amount).cost
              = CommandCost.error StringID.STR_ERROR_MAXIMUM_PERMITTED_LOAN
            ∧ (CmdIncreaseLoan LOAN_INTERVAL max_loan c flags cmd amount).company = c := by
  refine ⟨?_, ?_⟩
  · intro hlt
    have n1 : ¬ c.current_loan ≥ max_loan := by omega
    have hdvd : Money.mod amount LOAN_INTERVAL = 0 ↔ LOAN_INTERVAL ∣ amount :=
      Int.dvd_iff_tmod_eq_zero.symm
    rw [CmdIncreaseLoan_amount, if_neg n1]
    by_cases h2 : amount < LOAN_INTERVAL ∨ Money.add c.current_loan amount > max_loan
        ∨ Money.mod amount LOAN_INTERVAL ≠ 0
    · rw [if_pos h2]
      refine ⟨⟨fun _ => ?_, fun _ => rfl⟩, fun _ => rfl, fun h => ?_⟩
      · rcases h2 with h | h | h
        · exact Or.inl h
        · by_cases h' : amount < LOAN_INTERVAL
          · exact Or.inl h'
          · refine Or.inr (Or.inr (Or.inl ?_))
            unfold Money.add Money.saturate at h
            unfold IsMoney at hl ha
            unfold MONEY_MAX MONEY_MIN at *
            omega
        · exact Or.inr (Or.inl (fun hd => h (hdvd.2 hd)))
      · simp [CMD_ERROR, CommandCost.error] at h
    · rw [if_neg h2]
      simp only [not_or, not_lt, not_not, gt_iff_lt, ne_eq] at h2
      obtain ⟨g1, g2, g3⟩ := h2
      have hsub : Money.sub MONEY_MAX amount = MONEY_MAX - amount := by
        unfold Money.sub Money.saturate
        unfold IsMoney at ha
        unfold MONEY_MAX MONEY_MIN at *
        omega
      have hadd : c.current_loan + amount ≤ max_loan := by
        unfold Money.add Money.saturate at g2
        unfold IsMoney at hl ha
        unfold MONEY_MAX MONEY_MIN at *
        omega
      by_cases h3 : c.money > Money.sub MONEY_MAX amount
      · rw [if_pos h3]
        refine ⟨⟨fun _ => ?_, fun _ => rfl⟩, fun _ => rfl, fun h => ?_⟩
        · rw [hsub] at h3
          exact Or.inr (Or.inr (Or.inr h3))
        · simp [CMD_ERROR, CommandCost.error] at h
      · rw [if_neg h3]
        have hne : ¬ (amount < LOAN_INTERVAL ∨ ¬ LOAN_INTERVAL ∣ amount
            ∨ c.current_loan + amount > max_loan ∨ c.money > MONEY_MAX - amount) := by
          rw [hsub] at h3
          simp only [not_or, not_lt, not_not, gt_iff_lt]
          exact ⟨g1, hdvd.1 g3, hadd, by omega⟩
        have e1 : Money.add c.money amount = c.money + amount := by
          rw [hsub] at h3
          unfold Money.add Money.saturate
          unfold IsMoney at hm ha
          unfold MONEY_MAX MONEY_MIN at *
          omega
        have e2 : Money.add c.current_loan amount = c.current_loan + amount := by
          unfold Money.add Money.saturate
          unfold IsMoney at hl ha
          unfold MONEY_MAX MONEY_MIN at *
          omega
        by_cases hx : flags &&& DC_EXEC ≠ 0
        · rw [if_pos hx, e1, e2]
          refine ⟨⟨fun h => ?_, fun h => absurd h hne⟩, fun h => ?_, fun _ => ⟨rfl, rfl, fun _ => ⟨rfl, rfl⟩⟩⟩
          · simp [CommandCost.ofExpenses] at h
          · simp [CommandCost.ofExpenses] at h
        · rw [if_neg hx]
          refine ⟨⟨fun h => ?_, fun h => absurd h hne⟩, fun _ => rfl, fun _ => ⟨rfl, rfl, fun h => absurd h hx⟩⟩
          simp [CommandCost.ofExpenses] at h
  · intro cmd hge
    unfold CmdIncreaseLoan
    rw [if_pos hge]
    exact ⟨rfl, rfl⟩

/-- C4 (amended) at a company with 500000 in the bank and a loan of 100000, asking for 20000
with `LOAN_INTERVAL = 10000` and `max_loan = 300000` under `DC_EXEC`. -/
theorem C4_increase_loan_witness :
    ((100000 : Int) < (300000 : Int) →
        ((CmdIncreaseLoan 10000 300000 ⟨500000, 100000, []⟩ 1 LoanCommand.Amount 20000).cost.success
            = false
          ↔ ((20000 : Int) < (10000 : Int) ∨ ¬ (10000 : Int) ∣ (20000 : Int)
              ∨ (100000 : Int) + (20000 : Int) > (300000 : Int)
              ∨ (500000 : Int) > MONEY_MAX - (20000 : Int)))
        ∧ ((CmdIncreaseLoan 10000 300000 ⟨500000, 100000, []⟩ 1 LoanCommand.Amount
              20000).cost.success = false →
            (CmdIncreaseLoan 10000 300000 ⟨500000, 100000, []⟩ 1 LoanCommand.Amount 20000).company
              = ⟨500000, 100000, []⟩)
        ∧ ((CmdIncreaseLoan 10000 300000 ⟨500000, 100000, []⟩ 1 LoanCommand.Amount
              20000).cost.success = true →
            (CmdIncreaseLoan 10000 300000 ⟨500000, 100000, []⟩ 1 LoanCommand.Amount 20000).cost
                = CommandCost.ofExpenses ExpensesType.EXPENSES_OTHER
              ∧ (CmdIncreaseLoan 10000 300000 ⟨500000, 100000, []⟩ 1 LoanCommand.Amount
                  20000).cost.cost = 0
              ∧ (1 &&& DC_EXEC ≠ 0 →
                  (CmdIncreaseLoan 10000 300000 ⟨500000, 100000, []⟩ 1 LoanCommand.Amount
                      20000).company.money = (500000 : Int) + (20000 : Int)
                    ∧ (CmdIncreaseLoan 10000 300000 ⟨500000, 100000, []⟩ 1 LoanCommand.Amount
                      20000).company.current_loan = (100000 : Int) + (20000 : Int))))
      ∧ ∀ cmd : LoanCommand, (100000 : Int) ≥ (300000 : Int) →
          (CmdIncreaseLoan 10000 300000 ⟨500000, 100000, []⟩ 1 cmd 20000).cost
              = CommandCost.error StringID.STR_ERROR_MAXIMUM_PERMITTED_LOAN
            ∧ (CmdIncreaseLoan 10000 300000 ⟨500000, 100000, []⟩ 1 cmd 20000).company
              = ⟨500000, 100000, []⟩ :=
  C4_increase_loan 10000 300000 ⟨500000, 100000, []⟩ 1 20000 (by decide) (by decide) (by decide)
    (by decide) (by decide)

/-- C4 as stated fails when `max_loan` is `Money::max()`: with `LOAN_INTERVAL = 10000`, no
money and a loan of `Money::max() - 5`, which is below `max_loan`, asking for 20000 under
`DC_EXEC` succeeds although `current_loan + amount` exceeds `max_loan`, and the loan rises by 5
to `Money::max()` instead of by 20000. -/
theorem C4_counterexample :
    (⟨0, 9223372036854775802, []⟩ : Company).current_loan < MONEY_MAX
      ∧ (⟨0, 9223372036854775802, []⟩ : Company).current_loan + 20000 > MONEY_MAX
      ∧ (CmdIncreaseLoan 10000 MONEY_MAX ⟨0, 9223372036854775802, []⟩ DC_EXEC LoanCommand.Amount
          20000).cost.success = true
      ∧ (CmdIncreaseLoan 10000 MONEY_MAX ⟨0, 9223372036854775802, []⟩ DC_EXEC LoanCommand.Amount
          20000).company.money = 0 + 20000
      ∧ (CmdIncreaseLoan 10000 MONEY_MAX ⟨0, 9223372036854775802, []⟩ DC_EXEC LoanCommand.Amount
          20000).company.current_loan = 9223372036854775807
      ∧ (CmdIncreaseLoan 10000 MONEY_MAX ⟨0, 9223372036854775802, []⟩ DC_EXEC LoanCommand.Amount
          20000).company.current_loan ≠ 9223372036854775802 + 20000 := by
  decide

/-- `CmdDecreaseLoan` once the `switch` has settled on an amount. -/
theorem CmdDecreaseLoan_of_some (LOAN_INTERVAL : Int) (c : Company) (flags : Nat)
    (cmd : LoanCommand) (amount loan : Int) (h0 : c.current_loan ≠ 0)
    (hd : decreaseLoanAmount LOAN_INTERVAL c cmd amount = some loan) :
    CmdDecreaseLoan LOAN_INTERVAL c flags cmd amount
      = if c.money < loan then
          ⟨CommandCost.error StringID.STR_ERROR_CURRENCY_REQUIRED, some loan, c, false⟩
        else if flags &&& DC_EXEC ≠ 0 then
          ⟨CommandCost.ok, none,
            { c with money := Money.sub c.money loan,
                     current_loan := Money.sub c.current_loan loan }, true⟩
        else ⟨CommandCost.ok, none, c, false⟩ := by
  unfold CmdDecreaseLoan
  rw [if_neg h0, hd]

/-- `CmdDecreaseLoan` where the `switch` returns `CMD_ERROR`. -/
theorem CmdDecreaseLoan_of_none (LOAN_INTERVAL : Int) (c : Company) (flags : Nat)
    (cmd : LoanCommand) (amount : Int) (h0 : c.current_loan ≠ 0)
    (hd : decreaseLoanAmount LOAN_INTERVAL c cmd amount = none) :
    CmdDecreaseLoan LOAN_INTERVAL c flags cmd amount = ⟨CMD_ERROR, none, c, false⟩ := by
  unfold CmdDecreaseLoan
  rw [if_neg h0, hd]

/-- Every failure of `CmdDecreaseLoan` leaves the company as it was. -/
theorem CmdDecreaseLoan_failed_company (LOAN_INTERVAL : Int) (c : Company) (flags : Nat)
    (cmd : LoanCommand) (amount : Int)
    (hf : (CmdDecreaseLoan LOAN_INTERVAL c flags cmd amount).cost.success = false) :
    (CmdDecreaseLoan LOAN_INTERVAL c flags cmd amount).company = c := by
  by_cases h0 : c.current_loan = 0
  · unfold CmdDecreaseLoan
    rw [if_pos h0]
  · cases hd : decreaseLoanAmount LOAN_INTERVAL c cmd amount with
    | none => rw [CmdDecreaseLoan_of_none LOAN_INTERVAL c flags cmd amount h0 hd]
    | some loan =>
      rw [CmdDecreaseLoan_of_some LOAN_INTERVAL c flags cmd amount loan h0 hd] at hf ⊢
      by_cases h1 : c.money < loan
      · rw [if_pos h1]
      · rw [if_neg h1] at hf ⊢
        by_cases hx : flags &&& DC_EXEC ≠ 0
        · rw [if_pos hx] at hf
          simp [CommandCost.ok] at hf
        · rw [if_neg hx]

/-- With a positive interval and a positive loan, the amount to repay is positive. -/
theorem decreaseLoanAmount_pos (LOAN_INTERVAL : Int) (c : Company) (cmd : LoanCommand)
    (amount loan : Int) (hLI : 0 < LOAN_INTERVAL) (hl : 0 < c.current_loan)
    (hd : decreaseLoanAmount LOAN_INTERVAL c cmd amount = some loan) : 0 < loan := by
  cases cmd with
  | Interval =>
    simp only [decreaseLoanAmount, Option.some.injEq] at hd
    omega
  | Max =>
    simp only [decreaseLoanAmount, Option.some.injEq] at hd
    have hmpos : 0 ≤ max (min c.current_loan c.money) LOAN_INTERVAL := by omega
    have hge : LOAN_INTERVAL ≤ max (min c.current_loan c.money) LOAN_INTERVAL := by omega
    have t1 := Int.tmod_nonneg LOAN_INTERVAL hmpos
    have t2 := Int.tmod_lt_of_pos (max (min c.current_loan c.money) LOAN_INTERVAL) hLI
    unfold Money.sub Money.saturate Money.mod MONEY_MAX MONEY_MIN at hd
    omega
  | Amount =>
    simp only [decreaseLoanAmount] at hd
    split_ifs at hd with h
    simp only [not_or, not_lt, not_not, gt_iff_lt, ne_eq, Option.some.injEq] at h hd
    omega
  | Invalid => simp [decreaseLoanAmount] at hd

/-- C5 (amended): `CmdDecreaseLoan` returns the error `STR_ERROR_LOAN_ALREADY_REPAYED` exactly
when `current_loan == 0`; with `LoanCommand::Amount` and `current_loan != 0` it fails when
`amount` is not a multiple of `LOAN_INTERVAL`, is below `LOAN_INTERVAL` or exceeds
`current_loan`; in every mode, once the `switch` has settled on an amount to repay, it returns
the error `STR_ERROR_CURRENCY_REQUIRED` when money is less than that amount; every failure
leaves the company as it was; and, with `0 < LOAN_INTERVAL`, money and loan in the range of
`Money` and `current_loan > 0`, a success under `DC_EXEC` subtracts that same amount from money
and from the loan. -/
theorem C5_decrease_loan (LOAN_INTERVAL : Int) (c : Company) (flags : Nat) (cmd : LoanCommand)
    (amount : Int) (hLI : 0 < LOAN_INTERVAL) (hm : IsMoney c.money)
    (hl : IsMoney c.current_loan) :
    ((CmdDecreaseLoan LOAN_INTERVAL c flags cmd amount).cost
          = CommandCost.error StringID.STR_ERROR_LOAN_ALREADY_REPAYED ↔ c.current_loan = 0)
      ∧ (cmd = LoanCommand.Amount → c.current_loan ≠ 0 →
          (¬ LOAN_INTERVAL ∣ amount ∨ amount < LOAN_INTERVAL ∨ amount > c.current_loan) →
          (CmdDecreaseLoan LOAN_INTERVAL c flags cmd amount).cost.success = false)
      ∧ (c.current_loan ≠ 0 → ∀ loan : Int,
          decreaseLoanAmount LOAN_INTERVAL c cmd amount = some loan → c.money < loan →
          (CmdDecreaseLoan LOAN_INTERVAL c flags cmd amount).cost
            = CommandCost.error StringID.STR_ERROR_CURRENCY_REQUIRED)
      ∧ ((CmdDecreaseLoan LOAN_INTERVAL c flags cmd amount).cost.success = false →
          (CmdDecreaseLoan LOAN_INTERVAL c flags cmd amount).company = c)
      ∧ ((CmdDecreaseLoan LOAN_INTERVAL c flags cmd amount).cost.success = true →
          flags &&& DC_EXEC ≠ 0 → 0 < c.current_loan →
          ∃ loan : Int, decreaseLoanAmount LOAN_INTERVAL c cmd amount = some loan
            ∧ (CmdDecreaseLoan LOAN_INTERVAL c flags cmd amount).company.money = c.money - loan
            ∧ (CmdDecreaseLoan LOAN_INTERVAL c flags cmd amount).company.current_loan
                = c.current_loan - loan) := by
  refine ⟨?_, ?_, ?_, CmdDecreaseLoan_failed_company LOAN_INTERVAL c flags cmd amount, ?_⟩
  · constructor
    · intro h
      by_contra h0
      cases hd : decreaseLoanAmount LOAN_INTERVAL c cmd amount with
      | none =>
        rw [CmdDecreaseLoan_of_none LOAN_INTERVAL c flags cmd amount h0 hd] at h
        simp [CMD_ERROR, CommandCost.error] at h
      | some loan =>
        rw [CmdDecreaseLoan_of_some LOAN_INTERVAL c flags cmd amount loan h0 hd] at h
        split_ifs at h <;> simp [CommandCost.ok, CommandCost.error] at h
    · intro h0
      unfold CmdDecreaseLoan
      rw [if_pos h0]
  · intro hc h0 hbad
    subst hc
    have hd : decreaseLoanAmount LOAN_INTERVAL c LoanCommand.Amount amount = none := by
      simp only [decreaseLoanAmount]
      rw [if_pos]
      rcases hbad with h | h | h
      · exact Or.inl (fun ht => h (Int.dvd_iff_tmod_eq_zero.2 ht))
      · exact Or.inr (Or.inl h)
      · exact Or.inr (Or.inr h)
    rw [CmdDecreaseLoan_of_none LOAN_INTERVAL c flags _ amount h0 hd]
    rfl
  · intro h0 loan hd hlt
    rw [CmdDecreaseLoan_of_some LOAN_INTERVAL c flags cmd amount loan h0 hd, if_pos hlt]
  · intro hs hx hpos
    have h0 : c.current_loan ≠ 0 := by omega
    cases hd : decreaseLoanAmount LOAN_INTERVAL c cmd amount with
    | none =>
      rw [CmdDecreaseLoan_of_none LOAN_INTERVAL c flags cmd amount h0 hd] at hs
      simp [CMD_ERROR, CommandCost.error] at hs
    | some loan =>
      have hlp := decreaseLoanAmount_pos LOAN_INTERVAL c cmd amount loan hLI hpos hd
      rw [CmdDecreaseLoan_of_some LOAN_INTERVAL c flags cmd amount loan h0 hd] at hs ⊢
      by_cases h1 : c.money < loan
      · rw [if_pos h1] at hs
        simp [CommandCost.error] at hs
      · rw [if_neg h1, if_pos hx]
        refine ⟨loan, rfl, ?_, ?_⟩
        · show Money.sub c.money loan = c.money - loan
          unfold IsMoney at hm hl
          unfold Money.sub Money.saturate
          unfold MONEY_MAX MONEY_MIN at *
          omega
        · show Money.sub c.current_loan loan = c.current_loan - loan
          unfold IsMoney at hm hl
          unfold Money.sub Money.saturate
          unfold MONEY_MAX MONEY_MIN at *
          omega

/-- C5 (amended) at a company with 500000 in the bank and a loan of 100000, repaying 30000 with
`LOAN_INTERVAL = 10000` under `DC_EXEC`. -/
theorem C5_decrease_loan_witness :
    ((CmdDecreaseLoan 10000 ⟨500000, 100000, []⟩ 1 LoanCommand.Amount 30000).cost
          = CommandCost.error StringID.STR_ERROR_LOAN_ALREADY_REPAYED ↔ (100000 : Int) = 0)
      ∧ (LoanCommand.Amount = LoanCommand.Amount → (100000 : Int) ≠ 0 →
          (¬ (10000 : Int) ∣ 30000 ∨ (30000 : Int) < 10000 ∨ (30000 : Int) > 100000) →
          (CmdDecreaseLoan 10000 ⟨500000, 100000, []⟩ 1 LoanCommand.Amount 30000).cost.success = false)
      ∧ ((100000 : Int) ≠ 0 → ∀ loan : Int,
          decreaseLoanAmount 10000 ⟨500000, 100000, []⟩ LoanCommand.Amount 30000 = some loan → (500000 : Int) < loan →
          (CmdDecreaseLoan 10000 ⟨500000, 100000, []⟩ 1 LoanCommand.Amount 30000).cost
            = CommandCost.error StringID.STR_ERROR_CURRENCY_REQUIRED)
      ∧ ((CmdDecreaseLoan 10000 ⟨500000, 100000, []⟩ 1 LoanCommand.Amount 30000).cost.success = false →
          (CmdDecreaseLoan 10000 ⟨500000, 100000, []⟩ 1 LoanCommand.Amount 30000).company = ⟨500000, 100000, []⟩)
      ∧ ((CmdDecreaseLoan 10000 ⟨500000, 100000, []⟩ 1 LoanCommand.Amount 30000).cost.success = true →
          1 &&& DC_EXEC ≠ 0 → 0 < (100000 : Int) →
          ∃ loan : Int, decreaseLoanAmount 10000 ⟨500000, 100000, []⟩ LoanCommand.Amount 30000 = some loan
            ∧ (CmdDecreaseLoan 10000 ⟨500000, 100000, []⟩ 1 LoanCommand.Amount 30000).company.money = (500000 : Int) - loan
            ∧ (CmdDecreaseLoan 10000 ⟨500000, 100000, []⟩ 1 LoanCommand.Amount 30000).company.current_loan
                = (100000 : Int) - loan) :=
  C5_decrease_loan 10000 ⟨500000, 100000, []⟩ 1 LoanCommand.Amount 30000 (by decide) (by decide)
    (by decide)

/-- C5 as stated fails on a negative loan: with `LOAN_INTERVAL = 10000`, `Money::max()` in the
bank and a loan of `-10`, `CmdDecreaseLoan(DC_EXEC, LoanCommand::Interval, 0)` succeeds, money
stays at `Money::max()` (the subtraction of `-10` saturates) and the loan becomes `0`: no single
amount was subtracted from both. -/
theorem C5_counterexample :
    (CmdDecreaseLoan 10000 ⟨MONEY_MAX, -10, []⟩ DC_EXEC LoanCommand.Interval 0).cost.success = true
      ∧ (CmdDecreaseLoan 10000 ⟨MONEY_MAX, -10, []⟩ DC_EXEC LoanCommand.Interval 0).company
          = ⟨MONEY_MAX, 0, []⟩
      ∧ ¬ ∃ loan : Int,
          (CmdDecreaseLoan 10000 ⟨MONEY_MAX, -10, []⟩ DC_EXEC LoanCommand.Interval 0).company.money
              = MONEY_MAX - loan
            ∧ (CmdDecreaseLoan 10000 ⟨MONEY_MAX, -10, []⟩ DC_EXEC
                LoanCommand.Interval 0).company.current_loan = -10 - loan := by
  refine ⟨by decide, by decide, ?_⟩
  rintro ⟨loan, h1, h2⟩
  have e : (CmdDecreaseLoan 10000 ⟨MONEY_MAX, -10, []⟩ DC_EXEC LoanCommand.Interval 0).company
      = ⟨MONEY_MAX, 0, []⟩ := by decide
  rw [e] at h1 h2
  simp only at h1 h2
  omega

/-- In `LoanCommand::Max` mode with a loan of at least one interval, a success means that the
amount repaid is `m - m % LOAN_INTERVAL` for `m = min(current_loan, money) >= LOAN_INTERVAL`. -/
theorem decrease_max_amount (LOAN_INTERVAL : Int) (c : Company) (flags : Nat) (amount : Int)
    (hLI : 0 < LOAN_INTERVAL) (hLIm : IsMoney LOAN_INTERVAL) (hm : IsMoney c.money)
    (hl : IsMoney c.current_loan) (hge : LOAN_INTERVAL ≤ c.current_loan)
    (hs : (CmdDecreaseLoan LOAN_INTERVAL c flags LoanCommand.Max amount).cost.success = true) :
    LOAN_INTERVAL ≤ min c.current_loan c.money
      ∧ decreaseLoanAmount LOAN_INTERVAL c LoanCommand.Max amount
          = some (min c.current_loan c.money - min c.current_loan c.money % LOAN_INTERVAL) := by
  have h0 : c.current_loan ≠ 0 := by omega
  have hmoney : LOAN_INTERVAL ≤ c.money := by
    by_contra hlt
    have hmx : max (min c.current_loan c.money) LOAN_INTERVAL = LOAN_INTERVAL := by omega
    have hd : decreaseLoanAmount LOAN_INTERVAL c LoanCommand.Max amount = some LOAN_INTERVAL := by
      simp only [decreaseLoanAmount, hmx, Money.mod, Int.tmod_self, Int.sub_zero, Money.sub]
      rw [Money.saturate_eq hLIm]
    rw [CmdDecreaseLoan_of_some LOAN_INTERVAL c flags _ amount _ h0 hd, if_pos (by omega)] at hs
    simp [CommandCost.error] at hs
  refine ⟨by omega, ?_⟩
  have hmx : max (min c.current_loan c.money) LOAN_INTERVAL = min c.current_loan c.money := by
    omega
  have hnn : 0 ≤ min c.current_loan c.money := by omega
  have e1 := Int.emod_nonneg (min c.current_loan c.money) (by omega : LOAN_INTERVAL ≠ 0)
  have e2 := Int.emod_lt_of_pos (min c.current_loan c.money) hLI
  simp only [decreaseLoanAmount, hmx, Money.mod, Money.sub]
  rw [Int.tmod_eq_emod hnn (by omega), Money.saturate_eq]
  unfold IsMoney at *
  unfold MONEY_MAX MONEY_MIN at *
  omega

/-- The greatest multiple of a positive `k` below `m`. -/
theorem sub_emod_greatest (m k : Int) (hk : 0 < k) :
    k ∣ m - m % k ∧ m - m % k ≤ m ∧ ∀ x : Int, k ∣ x → x ≤ m → x ≤ m - m % k := by
  have hdef : m - m % k = k * (m / k) := by
    have := Int.ediv_add_emod m k
    omega
  refine ⟨?_, ?_, ?_⟩
  · rw [hdef]
    exact Dvd.intro _ rfl
  · have := Int.emod_nonneg m (by omega : k ≠ 0)
    omega
  · rintro x ⟨q, rfl⟩ hx
    rw [hdef]
    have hq : q ≤ m / k := Int.le_ediv_of_mul_le hk (by rw [Int.mul_comm]; exact hx)
    exact Int.mul_le_mul_of_nonneg_left hq (by omega)

/-- Where the loan is at least one interval, `LoanCommand::Max` repays the largest multiple that
loan and money allow: with `0 < LOAN_INTERVAL` and money and loan in the range of `Money`, for every
company with `current_loan >= LOAN_INTERVAL` on which `CmdDecreaseLoan` with `LoanCommand::Max`
succeeds under `DC_EXEC`, money and loan are both reduced by the largest multiple of
`LOAN_INTERVAL` that exceeds neither `current_loan` nor `money`; the `amount` argument plays no
part. -/
theorem decrease_max_largest_multiple (LOAN_INTERVAL : Int) (c : Company) (flags : Nat) (amount : Int)
    (hLI : 0 < LOAN_INTERVAL) (hLIm : IsMoney LOAN_INTERVAL) (hm : IsMoney c.money)
    (hl : IsMoney c.current_loan) (hge : LOAN_INTERVAL ≤ c.current_loan)
    (hx : flags &&& DC_EXEC ≠ 0)
    (hs : (CmdDecreaseLoan LOAN_INTERVAL c flags LoanCommand.Max amount).cost.success = true) :
    (∃ loan : Int,
        (CmdDecreaseLoan LOAN_INTERVAL c flags LoanCommand.Max amount).company.money
            = c.money - loan
          ∧ (CmdDecreaseLoan LOAN_INTERVAL c flags LoanCommand.Max amount).company.current_loan
            = c.current_loan - loan
          ∧ LOAN_INTERVAL ∣ loan ∧ loan ≤ c.current_loan ∧ loan ≤ c.money
          ∧ ∀ x : Int, LOAN_INTERVAL ∣ x → x ≤ c.current_loan → x ≤ c.money → x ≤ loan)
      ∧ ∀ amount2 : Int, CmdDecreaseLoan LOAN_INTERVAL c flags LoanCommand.Max amount2
          = CmdDecreaseLoan LOAN_INTERVAL c flags LoanCommand.Max amount := by
  obtain ⟨hmin, hd⟩ := decrease_max_amount LOAN_INTERVAL c flags amount hLI hLIm hm hl hge hs
  obtain ⟨g1, g2, g3⟩ := sub_emod_greatest (min c.current_loan c.money) LOAN_INTERVAL hLI
  have h0 : c.current_loan ≠ 0 := by omega
  have e1 := Int.emod_nonneg (min c.current_loan c.money) (by omega : LOAN_INTERVAL ≠ 0)
  have e2 := Int.emod_lt_of_pos (min c.current_loan c.money) hLI
  refine ⟨⟨min c.current_loan c.money - min c.current_loan c.money % LOAN_INTERVAL, ?_, ?_, g1,
    by omega, by omega, fun x hx1 hx2 hx3 => g3 x hx1 (by omega)⟩, ?_⟩
  · rw [CmdDecreaseLoan_of_some LOAN_INTERVAL c flags _ amount _ h0 hd, if_neg (by omega),
      if_pos hx]
    show Money.sub c.money _ = _
    unfold IsMoney at hm hl
    unfold Money.sub Money.saturate
    unfold MONEY_MAX MONEY_MIN at *
    omega
  · rw [CmdDecreaseLoan_of_some LOAN_INTERVAL c flags _ amount _ h0 hd, if_neg (by omega),
      if_pos hx]
    show Money.sub c.current_loan _ = _
    unfold IsMoney at hm hl
    unfold Money.sub Money.saturate
    unfold MONEY_MAX MONEY_MIN at *
    omega
  · intro amount2
    rfl

/-- The previous theorem at a company with 47000 in the bank and a loan of 80000, for
`LOAN_INTERVAL = 10000`: 40000 is repaid. -/
theorem decrease_max_largest_multiple_example :
    (∃ loan : Int,
        (CmdDecreaseLoan 10000 ⟨47000, 80000, []⟩ 1 LoanCommand.Max 0).company.money
            = 47000 - loan
          ∧ (CmdDecreaseLoan 10000 ⟨47000, 80000, []⟩ 1 LoanCommand.Max 0).company.current_loan
            = 80000 - loan
          ∧ (10000 : Int) ∣ loan ∧ loan ≤ 80000 ∧ loan ≤ 47000
          ∧ ∀ x : Int, (10000 : Int) ∣ x → x ≤ 80000 → x ≤ 47000 → x ≤ loan)
      ∧ ∀ amount2 : Int, CmdDecreaseLoan 10000 ⟨47000, 80000, []⟩ 1 LoanCommand.Max amount2
          = CmdDecreaseLoan 10000 ⟨47000, 80000, []⟩ 1 LoanCommand.Max 0 :=
  decrease_max_largest_multiple 10000 ⟨47000, 80000, []⟩ 1 0 (by decide) (by decide) (by decide) (by decide)
    (by decide) (by decide) (by decide)

/-- C6 fails on a loan below one interval, where `LoanCommand::Max` repays more than is owed:
with `LOAN_INTERVAL = 10000`, 10000 in the bank and a loan of 5000,
`CmdDecreaseLoan(DC_EXEC, LoanCommand::Max, 0)` succeeds and repays 10000, which exceeds the
loan and leaves a loan of `-5000`, whereas `LoanCommand::Interval` on the same company repays
5000 and `LoanCommand::Amount` with 10000 is refused. -/
theorem C6_max_overpays :
    (0 : Int) < (⟨10000, 5000, []⟩ : Company).current_loan
      ∧ (CmdDecreaseLoan 10000 ⟨10000, 5000, []⟩ DC_EXEC LoanCommand.Max 0).cost.success = true
      ∧ (CmdDecreaseLoan 10000 ⟨10000, 5000, []⟩ DC_EXEC LoanCommand.Max 0).company.money
          = 10000 - 10000
      ∧ (CmdDecreaseLoan 10000 ⟨10000, 5000, []⟩ DC_EXEC LoanCommand.Max 0).company.current_loan
          = 5000 - 10000
      ∧ ¬ ((10000 : Int) ≤ (⟨10000, 5000, []⟩ : Company).current_loan)
      ∧ (CmdDecreaseLoan 10000 ⟨10000, 5000, []⟩ DC_EXEC LoanCommand.Interval 0).company
          = ⟨5000, 0, []⟩
      ∧ (CmdDecreaseLoan 10000 ⟨10000, 5000, []⟩ DC_EXEC LoanCommand.Amount 10000).cost
          = CMD_ERROR := by
  decide

/-- C7 (amended): with `0 < LOAN_INTERVAL` and interval, money and loan in the range of `Money`,
under `DC_EXEC`: for every company with `current_loan > 0` on which `CmdDecreaseLoan` with
`LoanCommand::Interval` succeeds, money and loan are each reduced by exactly
`min(current_loan, LOAN_INTERVAL)`, which is `LOAN_INTERVAL` when the loan is at least one
interval; and when `CmdIncreaseLoan` with `LoanCommand::Interval` succeeds, money rises by
exactly `LOAN_INTERVAL`, and so does the loan provided
`current_loan + LOAN_INTERVAL <= Money::max()`. -/
theorem C7_interval (LOAN_INTERVAL max_loan : Int) (c : Company) (flags : Nat) (amount : Int)
    (hLI : 0 < LOAN_INTERVAL) (hLIm : IsMoney LOAN_INTERVAL) (hm : IsMoney c.money)
    (hl : IsMoney c.current_loan) (hx : flags &&& DC_EXEC ≠ 0) :
    (0 < c.current_loan →
        (CmdDecreaseLoan LOAN_INTERVAL c flags LoanCommand.Interval amount).cost.success = true →
        (CmdDecreaseLoan LOAN_INTERVAL c flags LoanCommand.Interval amount).company.money
            = c.money - min c.current_loan LOAN_INTERVAL
          ∧ (CmdDecreaseLoan LOAN_INTERVAL c flags LoanCommand.Interval
              amount).company.current_loan = c.current_loan - min c.current_loan LOAN_INTERVAL
          ∧ (LOAN_INTERVAL ≤ c.current_loan →
              (CmdDecreaseLoan LOAN_INTERVAL c flags LoanCommand.Interval amount).company.money
                  = c.money - LOAN_INTERVAL
                ∧ (CmdDecreaseLoan LOAN_INTERVAL c flags LoanCommand.Interval
                    amount).company.current_loan = c.current_loan - LOAN_INTERVAL))
      ∧ ((CmdIncreaseLoan LOAN_INTERVAL max_loan c flags LoanCommand.Interval
            amount).cost.success = true →
          (CmdIncreaseLoan LOAN_INTERVAL max_loan c flags LoanCommand.Interval
              amount).company.money = c.money + LOAN_INTERVAL
            ∧ (c.current_loan + LOAN_INTERVAL ≤ MONEY_MAX →
                (CmdIncreaseLoan LOAN_INTERVAL max_loan c flags LoanCommand.Interval
                  amount).company.current_loan = c.current_loan + LOAN_INTERVAL)) := by
  refine ⟨?_, ?_⟩
  · intro hpos hs
    have h0 : c.current_loan ≠ 0 := by omega
    have hd : decreaseLoanAmount LOAN_INTERVAL c LoanCommand.Interval amount
        = some (min c.current_loan LOAN_INTERVAL) := rfl
    rw [CmdDecreaseLoan_of_some LOAN_INTERVAL c flags _ amount _ h0 hd] at hs ⊢
    by_cases h1 : c.money < min c.current_loan LOAN_INTERVAL
    · rw [if_pos h1] at hs
      simp [CommandCost.error] at hs
    · rw [if_neg h1, if_pos hx]
      have a1 : Money.sub c.money (min c.current_loan LOAN_INTERVAL)
          = c.money - min c.current_loan LOAN_INTERVAL := by
        unfold IsMoney at hm hl
        unfold Money.sub Money.saturate
        unfold MONEY_MAX MONEY_MIN at *
        omega
      have a2 : Money.sub c.current_loan (min c.current_loan LOAN_INTERVAL)
          = c.current_loan - min c.current_loan LOAN_INTERVAL := by
        unfold IsMoney at hm hl
        unfold Money.sub Money.saturate
        unfold MONEY_MAX MONEY_MIN at *
        omega
      refine ⟨a1, a2, fun hge => ?_⟩
      have hmin : min c.current_loan LOAN_INTERVAL = LOAN_INTERVAL := by omega
      constructor
      · show Money.sub c.money (min c.current_loan LOAN_INTERVAL) = c.money - LOAN_INTERVAL
        rw [a1, hmin]
      · show Money.sub c.current_loan (min c.current_loan LOAN_INTERVAL)
          = c.current_loan - LOAN_INTERVAL
        rw [a2, hmin]
  · intro hs
    unfold CmdIncreaseLoan at hs ⊢
    by_cases h1 : c.current_loan ≥ max_loan
    · rw [if_pos h1] at hs
      simp [CommandCost.error] at hs
    · rw [if_neg h1] at hs ⊢
      simp only at hs ⊢
      by_cases h3 : c.money > Money.sub MONEY_MAX LOAN_INTERVAL
      · rw [if_pos h3] at hs
        simp [CMD_ERROR, CommandCost.error] at hs
      · rw [if_neg h3, if_pos hx]
        refine ⟨?_, fun hle => ?_⟩
        · show Money.add c.money LOAN_INTERVAL = c.money + LOAN_INTERVAL
          unfold IsMoney at hm hl hLIm
          unfold Money.sub Money.saturate at h3
          unfold Money.add Money.saturate
          unfold MONEY_MAX MONEY_MIN at *
          omega
        · show Money.add c.current_loan LOAN_INTERVAL = c.current_loan + LOAN_INTERVAL
          unfold IsMoney at hm hl hLIm
          unfold Money.add Money.saturate
          unfold MONEY_MAX MONEY_MIN at *
          omega

/-- C7 (amended) at a company with 500000 in the bank and a loan of 100000, for
`LOAN_INTERVAL = 10000` and `max_loan = 300000`. -/
theorem C7_interval_witness :
    ((0 : Int) < 100000 →
        (CmdDecreaseLoan 10000 ⟨500000, 100000, []⟩ 1 LoanCommand.Interval 0).cost.success = true →
        (CmdDecreaseLoan 10000 ⟨500000, 100000, []⟩ 1 LoanCommand.Interval 0).company.money
            = 500000 - min 100000 10000
          ∧ (CmdDecreaseLoan 10000 ⟨500000, 100000, []⟩ 1 LoanCommand.Interval
              0).company.current_loan = 100000 - min 100000 10000
          ∧ ((10000 : Int) ≤ 100000 →
              (CmdDecreaseLoan 10000 ⟨500000, 100000, []⟩ 1 LoanCommand.Interval 0).company.money
                  = 500000 - 10000
                ∧ (CmdDecreaseLoan 10000 ⟨500000, 100000, []⟩ 1 LoanCommand.Interval
                    0).company.current_loan = 100000 - 10000))
      ∧ ((CmdIncreaseLoan 10000 300000 ⟨500000, 100000, []⟩ 1 LoanCommand.Interval
            0).cost.success = true →
          (CmdIncreaseLoan 10000 300000 ⟨500000, 100000, []⟩ 1 LoanCommand.Interval
              0).company.money = 500000 + 10000
            ∧ ((100000 : Int) + 10000 ≤ MONEY_MAX →
                (CmdIncreaseLoan 10000 300000 ⟨500000, 100000, []⟩ 1 LoanCommand.Interval
                  0).company.current_loan = 100000 + 10000)) :=
  C7_interval 10000 300000 ⟨500000, 100000, []⟩ 1 0 (by decide) (by decide) (by decide)
    (by decide) (by decide)

/-- C7 as stated fails twice, for `LOAN_INTERVAL = 10000` under `DC_EXEC`. With 20000 in the
bank and a loan of 5000, `CmdDecreaseLoan` with `LoanCommand::Interval` succeeds and reduces
money and loan by 5000, not by 10000. With no money, a loan of `Money::max() - 1` and
`max_loan = Money::max()`, `CmdIncreaseLoan` with `LoanCommand::Interval` succeeds and the loan
rises by 1, to `Money::max()`. -/
theorem C7_counterexample :
    ((0 : Int) < (⟨20000, 5000, []⟩ : Company).current_loan
        ∧ (CmdDecreaseLoan 10000 ⟨20000, 5000, []⟩ DC_EXEC LoanCommand.Interval 0).cost.success
            = true
        ∧ (CmdDecreaseLoan 10000 ⟨20000, 5000, []⟩ DC_EXEC LoanCommand.Interval 0).company
            = ⟨15000, 0, []⟩
        ∧ (CmdDecreaseLoan 10000 ⟨20000, 5000, []⟩ DC_EXEC LoanCommand.Interval 0).company.money
            ≠ 20000 - 10000
        ∧ (CmdDecreaseLoan 10000 ⟨20000, 5000, []⟩ DC_EXEC
            LoanCommand.Interval 0).company.current_loan ≠ 5000 - 10000)
      ∧ ((CmdIncreaseLoan 10000 MONEY_MAX ⟨0, 9223372036854775806, []⟩ DC_EXEC
            LoanCommand.Interval 0).cost.success = true
        ∧ (CmdIncreaseLoan 10000 MONEY_MAX ⟨0, 9223372036854775806, []⟩ DC_EXEC
            LoanCommand.Interval 0).company = ⟨10000, 9223372036854775807, []⟩
        ∧ (CmdIncreaseLoan 10000 MONEY_MAX ⟨0, 9223372036854775806, []⟩ DC_EXEC
            LoanCommand.Interval 0).company.current_loan ≠ 9223372036854775806 + 10000) := by
  decide

/-! ### Battle royale: the elimination threshold -/

/-- The counting loop of `BrmProcessBuyCompanyShare` counts the owned share slots. -/
theorem foldl_count_owned (l : List Nat) (n : Nat) :
    l.foldl (fun count so => if so ≠ INVALID_OWNER then count + 1 else count) n
      = n + l.countP (fun so => so != INVALID_OWNER) := by
  induction l generalizing n with
  | nil => simp
  | cons a l ih =>
    rw [List.foldl_cons, ih, List.countP_cons]
    by_cases h : a = INVALID_OWNER
    · simp [h]
    · simp [h]; omega

/-- The `float` comparison `(float)count / (float)10 < 0.75` holds exactly below 8. -/
theorem f32_threshold :
    ∀ count : Nat, count ≤ 10 →
      f32LtThreeQuarters (f32Div count MAX_COMPANY_SHARE_OWNERS) = decide (count < 8) := by
  decide

/-- C8: on a server or in single player, with `_battle_royale` set and `target_company` a valid
company with its 10 share slots, `BrmProcessBuyCompanyShare` appends `target_company` to the
back of `_eliminated_companies` exactly when at least 75% of the slots are owned (differ from
`INVALID_OWNER`), that is when at least 8 of the 10 are, whoever the owners are and whatever the
queue holds, and changes nothing else; with 7 or fewer owned slots, on a network client, with
the mode off or for an invalid company, the state is unchanged. -/
theorem C8_buy_share_threshold (env : Env) (s : BrmState) (target_company : Nat) :
    ((env._networking = false ∨ env._network_server = true) → s._battle_royale = true →
        ∀ c : Company, env.pool.lookup target_company = some c →
          c.share_owners.length = MAX_COMPANY_SHARE_OWNERS →
          ((BrmProcessBuyCompanyShare env s target_company).1._eliminated_companies
                = s._eliminated_companies ++ [target_company]
              ↔ 75 * MAX_COMPANY_SHARE_OWNERS ≤ 100 * ownedShares c)
            ∧ (75 * MAX_COMPANY_SHARE_OWNERS ≤ 100 * ownedShares c ↔ 8 ≤ ownedShares c)
            ∧ (8 ≤ ownedShares c →
                BrmProcessBuyCompanyShare env s target_company
                  = ({ s with _eliminated_companies := s._eliminated_companies ++ [target_company] },
                      []))
            ∧ (ownedShares c ≤ 7 → BrmProcessBuyCompanyShare env s target_company = (s, [])))
      ∧ (((env._networking = true ∧ env._network_server = false) ∨ s._battle_royale = false
            ∨ env.pool.lookup target_company = none) →
          (BrmProcessBuyCompanyShare env s target_company).1 = s) := by
  refine ⟨?_, ?_⟩
  · intro hnet hbr c hc hlen
    have hn : (env._networking && !env._network_server) = false := by
      rcases hnet with h | h <;> simp [h]
    have hcount : c.share_owners.foldl
        (fun count so => if so ≠ INVALID_OWNER then count + 1 else count) 0 = ownedShares c := by
      rw [foldl_count_owned, Nat.zero_add]
      rfl
    have hle : ownedShares c ≤ 10 := by
      have := List.countP_le_length (fun so => so != INVALID_OWNER) (l := c.share_owners)
      unfold ownedShares
      unfold MAX_COMPANY_SHARE_OWNERS at hlen
      omega
    have hthr := f32_threshold (ownedShares c) hle
    have hrun : BrmProcessBuyCompanyShare env s target_company
        = if ownedShares c < 8 then (s, [])
          else ({ s with _eliminated_companies := s._eliminated_companies ++ [target_company] },
            []) := by
      unfold BrmProcessBuyCompanyShare
      simp only [hn, hbr, hc, hcount, hthr, Bool.false_eq_true, if_false, Bool.not_true,
        decide_eq_true_eq]
    have hpct : 75 * MAX_COMPANY_SHARE_OWNERS ≤ 100 * ownedShares c ↔ 8 ≤ ownedShares c := by
      unfold MAX_COMPANY_SHARE_OWNERS
      omega
    refine ⟨?_, hpct, ?_, ?_⟩
    · rw [hpct, hrun]
      by_cases h8 : ownedShares c < 8
      · rw [if_pos h8]
        constructor
        · intro h
          have := congrArg List.length h
          simp at this
        · intro h
          omega
      · rw [if_neg h8]
        exact ⟨fun _ => by omega, fun _ => rfl⟩
    · intro h8
      rw [hrun, if_neg (by omega)]
    · intro h7
      rw [hrun, if_pos (by omega)]
  · intro h
    unfold BrmProcessBuyCompanyShare
    rcases h with ⟨h1, h2⟩ | h | h
    · simp only [h1, h2, Bool.not_false, Bool.and_self, if_true]
      split_ifs <;> rfl
    · simp only [h, Bool.not_false, if_true]
      split_ifs <;> rfl
    · simp only [h]
      split_ifs <;> rfl

/-- C8 in single player, for the two companies of `exampleEnv`: company 3, with 8 owned slots,
is queued, and company 4, with 7, is not. -/
theorem C8_buy_share_threshold_witness :
    (BrmProcessBuyCompanyShare (exampleEnv false false 0)
        { BrmState.initial with _battle_royale := true, _eliminated_companies := [3] } 3
      = ({ BrmState.initial with _battle_royale := true, _eliminated_companies := [3, 3] }, []))
    ∧ (BrmProcessBuyCompanyShare (exampleEnv false false 0)
        { BrmState.initial with _battle_royale := true, _eliminated_companies := [3] } 4
      = ({ BrmState.initial with _battle_royale := true, _eliminated_companies := [3] }, [])) :=
  ⟨((C8_buy_share_threshold (exampleEnv false false 0)
      { BrmState.initial with _battle_royale := true, _eliminated_companies := [3] } 3).1
      (Or.inl rfl) rfl ⟨0, 0, [4, 4, 4, 4, 4, 4, 4, 4, 0x2FF, 0x2FF]⟩ (by decide)
      (by decide)).2.2.1 (by decide),
   ((C8_buy_share_threshold (exampleEnv false false 0)
      { BrmState.initial with _battle_royale := true, _eliminated_companies := [3] } 4).1
      (Or.inl rfl) rfl ⟨0, 0, [3, 3, 3, 3, 3, 3, 3, 0x2FF, 0x2FF, 0x2FF]⟩ (by decide)
      (by decide)).2.2.2 (by decide)⟩

/-! ### Battle royale: the elimination protocol -/

theorem toUint32_toInt32 (u : Nat) (h : u < 2 ^ 32) : toUint32 (toInt32 u) = u := by
  unfold toUint32 toInt32
  have hu : u % 2 ^ 32 = u := Nat.mod_eq_of_lt h
  rw [hu]
  split_ifs with h1
  · have : ((u : Int) % 2 ^ 32) = u := by omega
    rw [this]
    simp
  · have : (((u : Int) - 2 ^ 32) % 2 ^ 32) = u := by omega
    rw [this]
    simp

/-- The loop on an empty queue: no pass. -/
theorem tickLoop_nil (env : Env) (posted : Bool) (announced : Int) :
    tickLoop env [] posted announced = ⟨[], posted, announced, [], 0, false⟩ := rfl

/-- The loop when the front has not been announced: one pass, which announces and returns. -/
theorem tickLoop_announce (env : Env) (x : Nat) (rest : List Nat) (announced : Int) :
    tickLoop env (x :: rest) false announced
      = ⟨x :: rest, true, -1, [announceEliminated x, announceYouAreOut x], 1, true⟩ := by
  simp [tickLoop]

/-- The loop when the front has been announced and the server still waits: one pass, which
returns. -/
theorem tickLoop_wait (env : Env) (x : Nat) (rest : List Nat) (announced : Int)
    (hw : serverWaits env announced = true) :
    tickLoop env (x :: rest) true announced = ⟨x :: rest, true, announced, [], 1, true⟩ := by
  unfold serverWaits at hw
  simp only [tickLoop, Bool.not_true, Bool.false_eq_true, if_false, Bool.and_true]
  rw [if_pos hw]

/-- The loop when the front has been announced and nothing holds the deletion back: the front is
popped and deleted, and the loop goes on with the rest, the flag `posted` cleared. -/
theorem tickLoop_delete (env : Env) (x : Nat) (rest : List Nat) (announced : Int)
    (hw : serverWaits env announced = false) :
    tickLoop env (x :: rest) true announced
      = { tickLoop env rest false announced with
          effects := spectatorMoves env x
            ++ Effect.post_company_ctrl_delete x :: (tickLoop env rest false announced).effects,
          iterations := (tickLoop env rest false announced).iterations + 1 } := by
  unfold serverWaits at hw
  simp only [tickLoop, Bool.not_true, Bool.false_eq_true, if_false, Bool.and_true]
  rw [if_neg (by simp [hw])]

/-- The five ways in which the loop of one call can go. -/
theorem tickLoop_outcome (env : Env) (q : List Nat) (posted : Bool) (announced : Int) :
    (q = [] ∧ tickLoop env q posted announced = ⟨[], posted, announced, [], 0, false⟩)
      ∨ (∃ x rest, q = x :: rest ∧ posted = false
          ∧ tickLoop env q posted announced
            = ⟨x :: rest, true, -1, [announceEliminated x, announceYouAreOut x], 1, true⟩)
      ∨ (∃ x rest, q = x :: rest ∧ posted = true ∧ serverWaits env announced = true
          ∧ tickLoop env q posted announced = ⟨x :: rest, true, announced, [], 1, true⟩)
      ∨ (∃ x, q = [x] ∧ posted = true ∧ serverWaits env announced = false
          ∧ tickLoop env q posted announced
            = ⟨[], false, announced,
                spectatorMoves env x ++ [Effect.post_company_ctrl_delete x], 1, false⟩)
      ∨ (∃ x y rest, q = x :: y :: rest ∧ posted = true ∧ serverWaits env announced = false
          ∧ tickLoop env q posted announced
            = ⟨y :: rest, true, -1,
                spectatorMoves env x ++ Effect.post_company_ctrl_delete x
                  :: [announceEliminated y, announceYouAreOut y], 2, true⟩) := by
  cases q with
  | nil => exact Or.inl ⟨rfl, rfl⟩
  | cons x rest =>
    cases posted with
    | false => exact Or.inr (Or.inl ⟨x, rest, rfl, rfl, tickLoop_announce env x rest announced⟩)
    | true =>
      cases hw : serverWaits env announced with
      | true =>
        exact Or.inr (Or.inr (Or.inl ⟨x, rest, rfl, rfl, rfl, tickLoop_wait env x rest announced hw⟩))
      | false =>
        cases rest with
        | nil =>
          refine Or.inr (Or.inr (Or.inr (Or.inl ⟨x, rfl, rfl, rfl, ?_⟩)))
          rw [tickLoop_delete env x [] announced hw, tickLoop_nil]
        | cons y rest =>
          refine Or.inr (Or.inr (Or.inr (Or.inr ⟨x, y, rest, rfl, rfl, rfl, ?_⟩)))
          rw [tickLoop_delete env x (y :: rest) announced hw, tickLoop_announce]

/-- On a network client `BrmProcessGameTick` returns at once. -/
theorem tick_client (env : Env) (s : BrmState) (h1 : env._networking = true)
    (h2 : env._network_server = false) : BrmProcessGameTick env s = ⟨s, [], 0⟩ := by
  unfold BrmProcessGameTick
  simp [h1, h2]

/-- Off a network client, the queue and the two statics of the loop after a call are those that
the loop leaves, every effect of the loop is an effect of the call, and every deletion posted by
the call is posted by the loop. -/
theorem tick_not_client (env : Env) (s : BrmState)
    (h : (env._networking && !env._network_server) = false) :
    (BrmProcessGameTick env s).state._eliminated_companies
        = (tickLoop env s._eliminated_companies s.posted s.announced).queue
      ∧ (BrmProcessGameTick env s).state.posted
        = (tickLoop env s._eliminated_companies s.posted s.announced).posted
      ∧ (BrmProcessGameTick env s).state.announced
        = (tickLoop env s._eliminated_companies s.posted s.announced).announced
      ∧ (BrmProcessGameTick env s).iterations
        = (tickLoop env s._eliminated_companies s.posted s.announced).iterations
      ∧ (∀ e, e ∈ (tickLoop env s._eliminated_companies s.posted s.announced).effects →
          e ∈ (BrmProcessGameTick env s).effects)
      ∧ (∀ x, Effect.post_company_ctrl_delete x ∈ (BrmProcessGameTick env s).effects →
          Effect.post_company_ctrl_delete x
            ∈ (tickLoop env s._eliminated_companies s.posted s.announced).effects) := by
  unfold BrmProcessGameTick
  simp only [h, Bool.false_eq_true, if_false]
  split_ifs <;> simp_all

/-- A call that leaves the queue front, `posted` and `announced` alone keeps the invariant. -/
theorem BrmInv_extend (hist : List (Event × List Effect)) (s s2 : BrmState)
    (entry : Event × List Effect) (hinv : BrmInv hist s) (hp : s2.posted = s.posted)
    (ha : s2.announced = s.announced)
    (hq : ∀ x rest, s._eliminated_companies = x :: rest →
      ∃ rest2, s2._eliminated_companies = x :: rest2) :
    BrmInv (hist ++ [entry]) s2 := by
  intro hposted
  rw [hp] at hposted
  obtain ⟨x, rest, hqx, pre, envA, effsA, mid, hh, hann, hcb⟩ := hinv hposted
  obtain ⟨rest2, hq2⟩ := hq x rest hqx
  refine ⟨x, rest2, hq2, pre, envA, effsA, mid ++ [entry], ?_, hann, ?_⟩
  · rw [hh]
    simp
  · rw [ha]
    rcases hcb with h | ⟨mid1, envC, mid2, hm, hval⟩
    · exact Or.inl h
    · exact Or.inr ⟨mid1, envC, mid2 ++ [entry], by rw [hm]; simp, hval⟩

/-- The invariant holds after a call that has just announced the front `x`. -/
theorem BrmInv_fresh (hist : List (Event × List Effect)) (s2 : BrmState) (env : Env)
    (effs : List Effect) (x : Nat) (rest : List Nat) (hq : s2._eliminated_companies = x :: rest)
    (ha : s2.announced = -1) (hann : Announced x effs) :
    BrmInv (hist ++ [(Event.tick env, effs)]) s2 := by
  intro _
  exact ⟨x, rest, hq, hist, env, effs, [], rfl, hann, Or.inl ha⟩

/-- `BrmProcessBuyCompanyShare` leaves the state alone or appends the target to the queue. -/
theorem buy_share_state (env : Env) (s : BrmState) (target_company : Nat) :
    (BrmProcessBuyCompanyShare env s target_company).1 = s
      ∨ (BrmProcessBuyCompanyShare env s target_company).1
        = { s with _eliminated_companies := s._eliminated_companies ++ [target_company] } := by
  unfold BrmProcessBuyCompanyShare
  split_ifs
  · exact Or.inl rfl
  · exact Or.inl rfl
  · exact Or.inl rfl
  · split
    · exact Or.inl rfl
    · dsimp only
      split_ifs
      · exact Or.inl rfl
      · exact Or.inr rfl

/-- `CmdEnterBattleRoyaleMode` touches neither the queue nor the statics of the loop. -/
theorem enter_mode_fields (now : Int) (s : BrmState) (mode : Bool) :
    (CmdEnterBattleRoyaleMode now s mode).1.posted = s.posted
      ∧ (CmdEnterBattleRoyaleMode now s mode).1.announced = s.announced
      ∧ (CmdEnterBattleRoyaleMode now s mode).1._eliminated_companies
        = s._eliminated_companies := by
  unfold CmdEnterBattleRoyaleMode
  split_ifs
  · exact ⟨rfl, rfl, rfl⟩
  · dsimp only
    split_ifs <;> exact ⟨rfl, rfl, rfl⟩

/-- `BrmLoadResetMode` touches neither the queue nor the statics of the loop. -/
theorem load_reset_fields (s : BrmState) (new_value : Bool) :
    (BrmLoadResetMode s new_value).posted = s.posted
      ∧ (BrmLoadResetMode s new_value).announced = s.announced
      ∧ (BrmLoadResetMode s new_value)._eliminated_companies = s._eliminated_companies := by
  unfold BrmLoadResetMode
  dsimp only
  split_ifs <;> exact ⟨rfl, rfl, rfl⟩

/-- Every call keeps the invariant. -/
theorem BrmInv_step (hist : List (Event × List Effect)) (s : BrmState) (e : Event)
    (hinv : BrmInv hist s) : BrmInv (hist ++ [(e, (step s e).2)]) (step s e).1 := by
  cases e with
  | tick env =>
    show BrmInv (hist ++ [(Event.tick env, (BrmProcessGameTick env s).effects)])
      (BrmProcessGameTick env s).state
    cases hc : (env._networking && !env._network_server) with
    | true =>
      have h1 : env._networking = true := by
        cases h : env._networking <;> simp_all
      have h2 : env._network_server = false := by
        cases h : env._network_server <;> simp_all
      rw [tick_client env s h1 h2]
      exact BrmInv_extend hist s s _ hinv rfl rfl (fun x rest h => ⟨rest, h⟩)
    | false =>
      obtain ⟨tq, tp, ta, _, teff, _⟩ := tick_not_client env s hc
      rcases tickLoop_outcome env s._eliminated_companies s.posted s.announced with
        ⟨hq, hr⟩ | ⟨x, rest, hq, hp, hr⟩ | ⟨x, rest, hq, hp, hw, hr⟩ | ⟨x, hq, hp, hw, hr⟩
          | ⟨x, y, rest, hq, hp, hw, hr⟩
      · rw [hr] at tq tp ta
        intro hposted
        rw [tp] at hposted
        obtain ⟨x, rest, hqx, _⟩ := hinv hposted
        rw [hq] at hqx
        cases hqx
      · rw [hr] at tq tp ta teff
        exact BrmInv_fresh hist _ env _ x rest tq ta
          ⟨teff _ (by simp), teff _ (by simp)⟩
      · rw [hr] at tq tp ta
        refine BrmInv_extend hist s _ _ hinv (by rw [tp, hp]) ta ?_
        intro x2 rest2 h
        rw [tq, ← hq]
        exact ⟨rest2, h⟩
      · rw [hr] at tp
        intro hposted
        rw [tp] at hposted
        cases hposted
      · rw [hr] at tq tp ta teff
        exact BrmInv_fresh hist _ env _ y rest tq ta
          ⟨teff _ (by simp), teff _ (by simp)⟩
  | buy_share env target_company =>
    show BrmInv (hist ++ [(_, (BrmProcessBuyCompanyShare env s target_company).2)])
      (BrmProcessBuyCompanyShare env s target_company).1
    rcases buy_share_state env s target_company with h | h
    · rw [h]
      exact BrmInv_extend hist s s _ hinv rfl rfl (fun x rest hq => ⟨rest, hq⟩)
    · rw [h]
      exact BrmInv_extend hist s _ _ hinv rfl rfl
        (fun x rest hq => ⟨rest ++ [target_company], by simp [hq]⟩)
  | announce_callback env =>
    intro hposted
    obtain ⟨x, rest, hqx, pre, envA, effsA, mid, hh, hann, _⟩ := hinv hposted
    refine ⟨x, rest, hqx, pre, envA, effsA, mid ++ [(Event.announce_callback env, [])], ?_, hann,
      Or.inr ⟨mid, env, [], rfl, rfl⟩⟩
    rw [hh]
    simp [step]
  | enter_mode now mode =>
    obtain ⟨h1, h2, h3⟩ := enter_mode_fields now s mode
    exact BrmInv_extend hist s _ _ hinv h1 h2 (fun x rest hq => ⟨rest, by rw [← hq]; exact h3⟩)
  | load_reset new_value =>
    obtain ⟨h1, h2, h3⟩ := load_reset_fields s new_value
    exact BrmInv_extend hist s _ _ hinv h1 h2 (fun x rest hq => ⟨rest, by rw [← hq]; exact h3⟩)

theorem deletions_spectatorMoves (env : Env) (x : Nat) : deletions (spectatorMoves env x) = [] := by
  unfold spectatorMoves deletions
  split_ifs
  · rw [List.filterMap_eq_nil_iff]
    intro e he
    rw [List.mem_map] at he
    obtain ⟨ci, _, rfl⟩ := he
    rfl
  · rfl

theorem deletions_append (a b : List Effect) : deletions (a ++ b) = deletions a ++ deletions b := by
  unfold deletions
  rw [List.filterMap_append]

theorem mem_deletions (effs : List Effect) (x : Nat) :
    x ∈ deletions effs ↔ Effect.post_company_ctrl_delete x ∈ effs := by
  unfold deletions
  rw [List.mem_filterMap]
  constructor
  · rintro ⟨e, he, hx⟩
    cases e <;> simp at hx
    subst hx
    exact he
  · intro h
    exact ⟨_, h, rfl⟩

/-- The deletions that a call posts are those of its loop. -/
theorem tick_deletions (env : Env) (s : BrmState)
    (h : (env._networking && !env._network_server) = false) :
    deletions (BrmProcessGameTick env s).effects
      = deletions (tickLoop env s._eliminated_companies s.posted s.announced).effects := by
  unfold BrmProcessGameTick
  simp only [h, Bool.false_eq_true, if_false]
  split_ifs <;> simp [deletions_append, deletions]

/-- A deletion posted by a call is backed by what went before. -/
theorem tick_delete_justified (hist : List (Event × List Effect)) (s : BrmState) (env : Env)
    (x : Nat) (hinv : BrmInv hist s)
    (hdel : Effect.post_company_ctrl_delete x ∈ (BrmProcessGameTick env s).effects) :
    DeleteJustified hist env x := by
  cases hc : (env._networking && !env._network_server) with
  | true =>
    have h1 : env._networking = true := by
      cases h : env._networking <;> simp_all
    have h2 : env._network_server = false := by
      cases h : env._network_server <;> simp_all
    rw [tick_client env s h1 h2] at hdel
    simp at hdel
  | false =>
    have hd := (mem_deletions _ x).2 hdel
    rw [tick_deletions env s hc] at hd
    have key : ∀ x0 rest, s._eliminated_companies = x0 :: rest → s.posted = true →
        serverWaits env s.announced = false → x = x0 → DeleteJustified hist env x := by
      intro x0 rest hq hp hw hx
      subst hx
      obtain ⟨x1, rest1, hq1, pre, envA, effsA, mid, hh, hann, hcb⟩ := hinv hp
      rw [hq] at hq1
      cases hq1
      refine ⟨pre, envA, effsA, mid, hh, hann, ?_⟩
      intro hsrv
      unfold serverWaits at hw
      rw [hsrv] at hw
      simp only [Bool.true_and, Bool.or_eq_false_iff, beq_eq_false_iff_ne, ne_eq,
        decide_eq_false_iff_not, not_le] at hw
      rcases hcb with h | ⟨mid1, envC, mid2, hm, hval⟩
      · exact absurd h hw.1
      · refine ⟨mid1, envC, mid2, hm, ?_⟩
        have := hw.2
        rw [hval, toUint32_toInt32 _ (Nat.mod_lt _ (by norm_num))] at this
        exact this
    rcases tickLoop_outcome env s._eliminated_companies s.posted s.announced with
      ⟨hq, hr⟩ | ⟨x0, rest, hq, hp, hr⟩ | ⟨x0, rest, hq, hp, hw, hr⟩ | ⟨x0, hq, hp, hw, hr⟩
        | ⟨x0, y, rest, hq, hp, hw, hr⟩
    · rw [hr] at hd
      simp [deletions] at hd
    · rw [hr] at hd
      simp [deletions, announceEliminated, announceYouAreOut] at hd
    · rw [hr] at hd
      simp [deletions] at hd
    · rw [hr] at hd
      simp only [deletions_append, deletions_spectatorMoves, List.nil_append] at hd
      simp [deletions] at hd
      exact key x0 [] hq hp hw hd
    · rw [hr] at hd
      simp only [deletions_append, deletions_spectatorMoves, List.nil_append] at hd
      simp [deletions, announceEliminated, announceYouAreOut] at hd
      exact key x0 (y :: rest) hq hp hw hd

/-- Along every run that starts in a state with the invariant, every deletion is backed by the
calls before it. -/
theorem run_delete_justified (evs : List Event) :
    ∀ (s : BrmState) (hist : List (Event × List Effect)), BrmInv hist s →
      ∀ (pre : List (Event × List Effect)) (env : Env) (effs : List Effect)
        (post : List (Event × List Effect)) (x : Nat),
        run s evs = pre ++ (Event.tick env, effs) :: post →
        Effect.post_company_ctrl_delete x ∈ effs → DeleteJustified (hist ++ pre) env x := by
  induction evs with
  | nil =>
    intro s hist _ pre env effs post x hrun _
    simp [run] at hrun
  | cons e es ih =>
    intro s hist hinv pre env effs post x hrun hdel
    cases pre with
    | nil =>
      simp only [run, List.nil_append, List.cons.injEq, Prod.mk.injEq] at hrun
      obtain ⟨⟨he, heff⟩, _⟩ := hrun
      subst he
      rw [← heff] at hdel
      rw [List.append_nil]
      exact tick_delete_justified hist s env x hinv hdel
    | cons p pre2 =>
      simp only [run, List.cons_append, List.cons.injEq] at hrun
      obtain ⟨hp, hrest⟩ := hrun
      have := ih (step s e).1 (hist ++ [(e, (step s e).2)]) (BrmInv_step hist s e hinv) pre2 env
        effs post x hrest hdel
      rw [← hp]
      simpa using this

theorem BrmInv_initial : BrmInv [] BrmState.initial := by
  intro h
  simp [BrmState.initial] at h

/-- What one call does to the queue: nothing, with no deletion posted, or it pops the front and
posts the deletion of that company and of no other. -/
theorem tick_fifo (env : Env) (s : BrmState) :
    ((BrmProcessGameTick env s).state._eliminated_companies = s._eliminated_companies
        ∧ deletions (BrmProcessGameTick env s).effects = [])
      ∨ ∃ x, s._eliminated_companies = x :: (BrmProcessGameTick env s).state._eliminated_companies
          ∧ deletions (BrmProcessGameTick env s).effects = [x] := by
  cases hc : (env._networking && !env._network_server) with
  | true =>
    have h1 : env._networking = true := by
      cases h : env._networking <;> simp_all
    have h2 : env._network_server = false := by
      cases h : env._network_server <;> simp_all
    rw [tick_client env s h1 h2]
    exact Or.inl ⟨rfl, rfl⟩
  | false =>
    obtain ⟨tq, _, _, _, _, _⟩ := tick_not_client env s hc
    rw [tick_deletions env s hc, tq]
    rcases tickLoop_outcome env s._eliminated_companies s.posted s.announced with
      ⟨hq, hr⟩ | ⟨x0, rest, hq, hp, hr⟩ | ⟨x0, rest, hq, hp, hw, hr⟩ | ⟨x0, hq, hp, hw, hr⟩
        | ⟨x0, y, rest, hq, hp, hw, hr⟩
    · rw [hr, hq]
      exact Or.inl ⟨rfl, rfl⟩
    · rw [hr, hq]
      exact Or.inl ⟨rfl, rfl⟩
    · rw [hr, hq]
      exact Or.inl ⟨rfl, rfl⟩
    · rw [hr, hq]
      refine Or.inr ⟨x0, rfl, ?_⟩
      simp only [deletions_append, deletions_spectatorMoves, List.nil_append]
      rfl
    · rw [hr, hq]
      refine Or.inr ⟨x0, rfl, ?_⟩
      simp only [deletions_append, deletions_spectatorMoves, List.nil_append]
      rfl

/-- The loop is entered at most twice in a call. -/
theorem tick_iterations_le (env : Env) (s : BrmState) :
    (BrmProcessGameTick env s).iterations ≤ 2 := by
  cases hc : (env._networking && !env._network_server) with
  | true =>
    have h1 : env._networking = true := by
      cases h : env._networking <;> simp_all
    have h2 : env._network_server = false := by
      cases h : env._network_server <;> simp_all
    rw [tick_client env s h1 h2]
    exact Nat.zero_le 2
  | false =>
    obtain ⟨_, _, _, ti, _, _⟩ := tick_not_client env s hc
    rw [ti]
    rcases tickLoop_outcome env s._eliminated_companies s.posted s.announced with
      ⟨_, hr⟩ | ⟨_, _, _, _, hr⟩ | ⟨_, _, _, _, _, hr⟩ | ⟨_, _, _, _, hr⟩
        | ⟨_, _, _, _, _, _, hr⟩ <;> rw [hr] <;> simp

/-- One call: the queue before it followed by what the call appends is what the call deletes
followed by the queue after it. -/
theorem step_fifo (s : BrmState) (e : Event) :
    s._eliminated_companies ++ appended s e
      = deletions (step s e).2 ++ (step s e).1._eliminated_companies := by
  cases e with
  | tick env =>
    show s._eliminated_companies ++ []
      = deletions (BrmProcessGameTick env s).effects
        ++ (BrmProcessGameTick env s).state._eliminated_companies
    rcases tick_fifo env s with ⟨hq, hd⟩ | ⟨x, hq, hd⟩
    · rw [hq, hd]
      simp
    · rw [hd, hq]
      simp
  | buy_share env target_company =>
    have hdel : deletions (BrmProcessBuyCompanyShare env s target_company).2 = [] := by
      unfold BrmProcessBuyCompanyShare
      split_ifs
      · rfl
      · rfl
      · rfl
      · split
        · rfl
        · dsimp only
          split_ifs <;> rfl
    show s._eliminated_companies ++ appended s (Event.buy_share env target_company)
      = deletions (BrmProcessBuyCompanyShare env s target_company).2
        ++ (BrmProcessBuyCompanyShare env s target_company).1._eliminated_companies
    rw [hdel, List.nil_append]
    unfold appended
    rcases buy_share_state env s target_company with h | h
    · simp [h]
    · simp [h]
  | announce_callback env => simp [appended, step, CcBrmAnnounce, deletions]
  | enter_mode now mode =>
    simp [appended, step, deletions, (enter_mode_fields now s mode).2.2]
  | load_reset new_value =>
    simp [appended, step, deletions, (load_reset_fields s new_value).2.2]

/-- Along a run, the queue at the start followed by the companies appended is the companies
deleted followed by the queue at the end. -/
theorem run_fifo (evs : List Event) :
    ∀ s : BrmState, s._eliminated_companies ++ runAppended s evs
      = runDeletions s evs ++ (runState s evs)._eliminated_companies := by
  induction evs with
  | nil =>
    intro s
    simp [runAppended, runDeletions, runState]
  | cons e es ih =>
    intro s
    simp only [runAppended, runDeletions, runState]
    rw [← List.append_assoc, step_fifo s e, List.append_assoc, ih (step s e).1,
      List.append_assoc]

/-- C9: the elimination protocol of `BrmProcessGameTick`. On a network client a call changes
nothing and posts nothing. The body of the `while` loop is entered at most twice in a call. A
call either leaves the queue alone and posts no deletion, or pops the front of the queue and
posts the `CMD_COMPANY_CTRL` deletion of that company and of no other, so that at most one
company leaves per call, from the front; along every run from program start the companies
deleted, in order, followed by the queue at the end are the companies appended, in order (first
in, first out). And along every run from program start, whenever a call posts the deletion of a
company, a strictly earlier call of `BrmProcessGameTick` posted the announcements "Company
Eliminated" and "You are out" for it, and if the deleting call runs on a network server then
`CcBrmAnnounce` ran between the two calls and `_frame_counter` exceeds the frame that it
recorded. -/
theorem C9_elimination_protocol :
    (∀ (env : Env) (s : BrmState), env._networking = true → env._network_server = false →
        BrmProcessGameTick env s = ⟨s, [], 0⟩)
      ∧ (∀ (env : Env) (s : BrmState), (BrmProcessGameTick env s).iterations ≤ 2)
      ∧ (∀ (env : Env) (s : BrmState),
          ((BrmProcessGameTick env s).state._eliminated_companies = s._eliminated_companies
              ∧ deletions (BrmProcessGameTick env s).effects = [])
            ∨ ∃ x, s._eliminated_companies
                  = x :: (BrmProcessGameTick env s).state._eliminated_companies
                ∧ deletions (BrmProcessGameTick env s).effects = [x])
      ∧ (∀ evs : List Event,
          runAppended BrmState.initial evs
            = runDeletions BrmState.initial evs
              ++ (runState BrmState.initial evs)._eliminated_companies)
      ∧ (∀ (evs : List Event) (pre : List (Event × List Effect)) (env : Env)
          (effs : List Effect) (post : List (Event × List Effect)) (x : Nat),
          run BrmState.initial evs = pre ++ (Event.tick env, effs) :: post →
          Effect.post_company_ctrl_delete x ∈ effs →
          ∃ pre1 envA effsA mid, pre = pre1 ++ (Event.tick envA, effsA) :: mid
            ∧ announceEliminated x ∈ effsA ∧ announceYouAreOut x ∈ effsA
            ∧ (env._network_server = true →
                ∃ mid1 envC mid2, mid = mid1 ++ (Event.announce_callback envC, []) :: mid2
                  ∧ (envC._frame_counter_max + 1) % 2 ^ 32 < env._frame_counter)) := by
  refine ⟨tick_client, tick_iterations_le, tick_fifo, ?_, ?_⟩
  · intro evs
    have := run_fifo evs BrmState.initial
    simpa [BrmState.initial] using this
  · intro evs pre env effs post x hrun hdel
    have := run_delete_justified evs BrmState.initial [] BrmInv_initial pre env effs post x hrun
      hdel
    simpa [DeleteJustified, Announced, and_assoc] using this

/-- C9 on a network server: battle royale is entered, company 3 is bought out, the call at frame
10 announces its elimination, `CcBrmAnnounce` records frame 21, and the call at frame 22 moves
its client to the spectators and deletes it. -/
theorem C9_elimination_protocol_witness :
    ∃ pre1 envA effsA mid,
      [(Event.enter_mode 0 true, ([] : List Effect)),
        (Event.buy_share (exampleEnv true true 9) 3, []),
        (Event.tick (exampleEnv true true 10), [announceEliminated 3, announceYouAreOut 3]),
        (Event.announce_callback (exampleEnv true true 20), [])]
          = pre1 ++ (Event.tick envA, effsA) :: mid
        ∧ announceEliminated 3 ∈ effsA ∧ announceYouAreOut 3 ∈ effsA
        ∧ ((exampleEnv true true 22)._network_server = true →
            ∃ mid1 envC mid2, mid = mid1 ++ (Event.announce_callback envC, []) :: mid2
              ∧ (envC._frame_counter_max + 1) % 2 ^ 32 < (exampleEnv true true 22)._frame_counter) :=
  C9_elimination_protocol.2.2.2.2
    [Event.enter_mode 0 true, Event.buy_share (exampleEnv true true 9) 3,
      Event.tick (exampleEnv true true 10), Event.announce_callback (exampleEnv true true 20),
      Event.tick (exampleEnv true true 22)]
    [(Event.enter_mode 0 true, []), (Event.buy_share (exampleEnv true true 9) 3, []),
      (Event.tick (exampleEnv true true 10), [announceEliminated 3, announceYouAreOut 3]),
      (Event.announce_callback (exampleEnv true true 20), [])]
    (exampleEnv true true 22)
    [Effect.server_do_move 1 COMPANY_SPECTATOR, Effect.post_company_ctrl_delete 3]
    [] 3 (by decide) (by decide)

end OpenTTD
